import Mathlib

/-!
Verification development for the ArikaJs/database query-building and ORM layer.

The definitions below are a shallow embedding of the TypeScript source:
the query builder (src/Query/QueryBuilder.ts), the transaction manager,
the model attribute layer (src/Model/Model.ts), the relation engine
(src/Model/Relations.ts) and the read/write connection routing
(src/Connections/PostgreSQLConnection.ts).  JavaScript dynamic values are
modelled by the inductive type `JsVal`; JavaScript objects holding model
attributes are modelled as association lists with the key set kept
duplicate-free; fallible code returns `Except String`.
-/

/-- A JavaScript value as it occurs in query bindings and model attributes:
undefined, null, booleans, (integer) numbers and strings. -/
inductive JsVal where
  | undefV : JsVal
  | nullV : JsVal
  | boolV : Bool → JsVal
  | num : Int → JsVal
  | str : String → JsVal
deriving DecidableEq, Repr

namespace JsVal

/-- JavaScript truthiness: undefined, null, false, 0 and the empty string are
falsy, everything else is truthy. -/
def truthy : JsVal → Bool
  | .undefV => false
  | .nullV => false
  | .boolV b => b
  | .num n => !(n == 0)
  | .str s => !(s == "")

/-- JavaScript string coercion as used by template-literal interpolation. -/
def coerceStr : JsVal → String
  | .undefV => "undefined"
  | .nullV => "null"
  | .boolV b => if b then "true" else "false"
  | .num n => toString n
  | .str s => s

end JsVal

/-- Property read on a JavaScript object: a missing key reads as undefined. -/
def lookupJs (attrs : List (String × JsVal)) (key : String) : JsVal :=
  match attrs.find? (fun kv => kv.1 == key) with
  | some kv => kv.2
  | none => .undefV

/-- Property write on a JavaScript object: an existing key is updated in
place, a new key is appended at the end. -/
def setJs (attrs : List (String × JsVal)) (key : String) (v : JsVal) :
    List (String × JsVal) :=
  if attrs.any (fun kv => kv.1 == key) then
    attrs.map (fun kv => if kv.1 == key then (kv.1, v) else kv)
  else
    attrs ++ [(key, v)]

/-- The boolean connector of a where clause ('and' / 'or'). -/
inductive Conj where
  | andC : Conj
  | orC : Conj
deriving DecidableEq, Repr

/-- The uppercased SQL text of a connector, as produced by
`where.boolean.toUpperCase()`. -/
def Conj.sqlText : Conj → String
  | .andC => "AND"
  | .orC => "OR"

/-- A where clause of the query builder (the `WhereClause` interface of
QueryBuilder.ts).  The `exists` / `notExists` variants carry the complete
state of the nested sub-builder built by `whereExists`. -/
inductive WhereC where
  | basic (column : String) (operator : JsVal) (value : JsVal) (conj : Conj)
  | inW (column : String) (values : List JsVal) (conj : Conj)
  | notInW (column : String) (values : List JsVal) (conj : Conj)
  | nullW (column : String) (conj : Conj)
  | notNullW (column : String) (conj : Conj)
  | rawW (sql : String) (bindings : List JsVal) (conj : Conj)
  | existsW (notE : Bool) (conj : Conj)
      (subTable : Option String) (subSelect : List String)
      (subSelectRaw : List (String × List JsVal)) (subWheres : List WhereC)
      (subOrder : List (String × String)) (subLimit subOffset : Option Nat)

/-- The accumulated state of a `QueryBuilder` instance. -/
structure BuilderQ where
  tableName : Option String := none
  selectColumns : List String := ["*"]
  selectRawExprs : List (String × List JsVal) := []
  whereClauses : List WhereC := []
  orderByColumns : List (String × String) := []
  limitValue : Option Nat := none
  offsetValue : Option Nat := none

namespace BuilderQ

/-- The `table` builder method. -/
def table (b : BuilderQ) (t : String) : BuilderQ := { b with tableName := some t }

/-- The `where` builder method.  A third argument equal to `undefined` (the
omitted-argument case) makes the operator argument be reinterpreted as the
value with the operator defaulting to the string "=". -/
def whereM (b : BuilderQ) (column : String) (operator value : JsVal) : BuilderQ :=
  if value = .undefV then
    { b with whereClauses := b.whereClauses ++ [.basic column (.str "=") operator .andC] }
  else
    { b with whereClauses := b.whereClauses ++ [.basic column operator value .andC] }

/-- The `orWhere` builder method. -/
def orWhereM (b : BuilderQ) (column : String) (operator value : JsVal) : BuilderQ :=
  if value = .undefV then
    { b with whereClauses := b.whereClauses ++ [.basic column (.str "=") operator .orC] }
  else
    { b with whereClauses := b.whereClauses ++ [.basic column operator value .orC] }

/-- The `whereIn` builder method. -/
def whereInM (b : BuilderQ) (column : String) (values : List JsVal) : BuilderQ :=
  { b with whereClauses := b.whereClauses ++ [.inW column values .andC] }

/-- The `whereNotIn` builder method. -/
def whereNotInM (b : BuilderQ) (column : String) (values : List JsVal) : BuilderQ :=
  { b with whereClauses := b.whereClauses ++ [.notInW column values .andC] }

/-- The `whereNull` builder method. -/
def whereNullM (b : BuilderQ) (column : String) : BuilderQ :=
  { b with whereClauses := b.whereClauses ++ [.nullW column .andC] }

/-- The `whereNotNull` builder method. -/
def whereNotNullM (b : BuilderQ) (column : String) : BuilderQ :=
  { b with whereClauses := b.whereClauses ++ [.notNullW column .andC] }

/-- The `whereRaw` builder method (conj 'and'); `orWhereRaw` uses 'or'. -/
def whereRawM (b : BuilderQ) (sql : String) (bindings : List JsVal) (conj : Conj) : BuilderQ :=
  { b with whereClauses := b.whereClauses ++ [.rawW sql bindings conj] }

/-- The `whereExists` builder method: the callback has already produced the
sub-builder `sub`. -/
def whereExistsM (b : BuilderQ) (sub : BuilderQ) (conj : Conj) (notE : Bool) : BuilderQ :=
  { b with whereClauses := b.whereClauses ++
      [.existsW notE conj sub.tableName sub.selectColumns sub.selectRawExprs
        sub.whereClauses sub.orderByColumns sub.limitValue sub.offsetValue] }

/-- The `selectRaw` builder method. -/
def selectRawM (b : BuilderQ) (sql : String) (bindings : List JsVal) : BuilderQ :=
  { b with selectRawExprs := b.selectRawExprs ++ [(sql, bindings)] }

/-- The `limit` builder method. -/
def limitM (b : BuilderQ) (n : Nat) : BuilderQ := { b with limitValue := some n }

/-- The `offset` builder method. -/
def offsetM (b : BuilderQ) (n : Nat) : BuilderQ := { b with offsetValue := some n }

end BuilderQ

/-- The truthiness test `!this.tableName` applied to the table name: both an
unset table and an empty-string table are falsy. -/
def tableTruthy : Option String → Bool
  | none => false
  | some t => !(t == "")

/-- The `(?, ?, ...)` placeholder list for `n` values, as produced by
`values.map(() => '?').join(', ')`. -/
def placeholders (n : Nat) : String :=
  String.intercalate ", " (List.replicate n "?")

/-- The boolean prefix of a compiled where clause: empty for the first
clause, otherwise the clause's own connector uppercased between spaces. -/
def boolGlue (first : Bool) (c : Conj) : String :=
  if first then "" else " " ++ c.sqlText ++ " "

mutual

/-- Compile one where clause to its SQL fragment and its bindings,
mirroring the per-clause switch of `buildWhereClause`. -/
def compileWhere (first : Bool) : WhereC → Except String (String × List JsVal)
  | .basic column operator value conj =>
      .ok (boolGlue first conj ++ column ++ " " ++ operator.coerceStr ++ " ?", [value])
  | .inW column values conj =>
      .ok (boolGlue first conj ++ column ++ " IN (" ++ placeholders values.length ++ ")", values)
  | .notInW column values conj =>
      .ok (boolGlue first conj ++ column ++ " NOT IN (" ++ placeholders values.length ++ ")", values)
  | .nullW column conj =>
      .ok (boolGlue first conj ++ column ++ " IS NULL", [])
  | .notNullW column conj =>
      .ok (boolGlue first conj ++ column ++ " IS NOT NULL", [])
  | .rawW sql bindings conj =>
      .ok (boolGlue first conj ++ sql, bindings)
  | .existsW notE conj subTable subSelect subSelectRaw subWheres subOrder subLimit subOffset =>
      if tableTruthy subTable = false then
        .error "Table name is required"
      else do
        let wres ← compileWheres true subWheres
        let sub ← buildSelectFromParts subTable subSelect subSelectRaw wres subOrder subLimit subOffset
        let op := if notE then "NOT EXISTS" else "EXISTS"
        .ok (boolGlue first conj ++ op ++ " (" ++ sub.1 ++ ")", sub.2)

/-- Compile a list of where clauses to the list of SQL clause fragments and
the concatenated bindings, mirroring the `forEach` of `buildWhereClause`
(the flag records whether the next clause is at index 0). -/
def compileWheres (first : Bool) : List WhereC → Except String (List String × List JsVal)
  | [] => .ok ([], [])
  | w :: ws => do
      let c ← compileWhere first w
      let rest ← compileWheres false ws
      .ok (c.1 :: rest.1, c.2 ++ rest.2)

/-- Assemble the compiled SELECT from the builder parts and an
already-compiled where result, mirroring `buildSelectQuery`. -/
def buildSelectFromParts (tableName : Option String) (selectColumns : List String)
    (selectRawExprs : List (String × List JsVal))
    (wres : List String × List JsVal)
    (orderByColumns : List (String × String))
    (limitValue offsetValue : Option Nat) : Except String (String × List JsVal) :=
  if tableTruthy tableName = false then
    .error "Table name is required"
  else
    let t := tableName.getD ""
    let rawSelectSql := selectRawExprs.map (fun r => r.1)
    let selectBindings := selectRawExprs.flatMap (fun r => r.2)
    let columnsList0 := String.intercalate ", " (selectColumns ++ rawSelectSql)
    let columnsList := if columnsList0 = "" then "*" else columnsList0
    let whereClause :=
      if wres.1.isEmpty then "" else " WHERE " ++ String.join wres.1
    let sql0 := "SELECT " ++ columnsList ++ " FROM " ++ t ++ whereClause
    let sql1 :=
      if orderByColumns.isEmpty then sql0
      else sql0 ++ " ORDER BY " ++
        String.intercalate ", "
          (orderByColumns.map (fun oc => oc.1 ++ " " ++ oc.2.toUpper))
    let sql2 :=
      match limitValue with
      | some n => sql1 ++ " LIMIT " ++ toString n
      | none => sql1
    let sql3 :=
      match offsetValue with
      | some n => sql2 ++ " OFFSET " ++ toString n
      | none => sql2
    .ok (sql3, selectBindings ++ wres.2)

end

/-- The `buildSelectQuery` method: compile the where clauses and assemble
the SELECT (binding order: select-raw bindings then where bindings). -/
def buildSelectQuery (b : BuilderQ) : Except String (String × List JsVal) := do
  if tableTruthy b.tableName = false then
    .error "Table name is required"
  else
    let wres ← compileWheres true b.whereClauses
    buildSelectFromParts b.tableName b.selectColumns b.selectRawExprs wres
      b.orderByColumns b.limitValue b.offsetValue

/-- The `buildWhereClause` method: empty input gives an empty clause and no
bindings, otherwise the string " WHERE " followed by the joined fragments. -/
def buildWhereClauseE (b : BuilderQ) : Except String (String × List JsVal) := do
  let wres ← compileWheres true b.whereClauses
  if wres.1.isEmpty then
    .ok ("", [])
  else
    .ok (" WHERE " ++ String.join wres.1, wres.2)

/-- The query the `get` terminal operation would dispatch to the connection
(SQL text and bindings); an error is raised before any query is dispatched. -/
def getPlan (b : BuilderQ) : Except String (String × List JsVal) :=
  buildSelectQuery b

/-- The query the `first` terminal operation would dispatch: it forces
`limit(1)` and delegates to `get`. -/
def firstPlan (b : BuilderQ) : Except String (String × List JsVal) :=
  getPlan (b.limitM 1)

/-- The query the `insert` terminal operation would dispatch for the given
rows, or `none` when the row list is empty (insert returns null). -/
def insertPlan (b : BuilderQ) (rows : List (List (String × JsVal))) :
    Except String (Option (String × List JsVal)) :=
  if tableTruthy b.tableName = false then
    .error "Table name is required"
  else
    match rows with
    | [] => .ok none
    | r0 :: _ =>
      let columns := r0.map (fun kv => kv.1)
      let ph := String.intercalate ", "
        (rows.map (fun _ => "(" ++ placeholders columns.length ++ ")"))
      let values := rows.flatMap (fun row => columns.map (fun c =>
        match lookupJs row c with
        | .undefV => .nullV
        | v => v))
      .ok (some ("INSERT INTO " ++ b.tableName.getD "" ++ " (" ++
        String.intercalate ", " columns ++ ") VALUES " ++ ph, values))

/-- The query the `update` terminal operation would dispatch for the given
column/value data. -/
def updatePlan (b : BuilderQ) (data : List (String × JsVal)) :
    Except String (String × List JsVal) :=
  if tableTruthy b.tableName = false then
    .error "Table name is required"
  else do
    let wres ← buildWhereClauseE b
    let setClause := String.intercalate ", " (data.map (fun kv => kv.1 ++ " = ?"))
    .ok ("UPDATE " ++ b.tableName.getD "" ++ " SET " ++ setClause ++ wres.1,
      data.map (fun kv => kv.2) ++ wres.2)

/-- The query the `delete` terminal operation would dispatch. -/
def deletePlan (b : BuilderQ) : Except String (String × List JsVal) :=
  if tableTruthy b.tableName = false then
    .error "Table name is required"
  else do
    let wres ← buildWhereClauseE b
    .ok ("DELETE FROM " ++ b.tableName.getD "" ++ wres.1, wres.2)

/-- The query the `count` terminal operation would dispatch. -/
def countPlan (b : BuilderQ) (column : String) : Except String (String × List JsVal) :=
  if tableTruthy b.tableName = false then
    .error "Table name is required"
  else do
    let wres ← buildWhereClauseE b
    .ok ("SELECT COUNT(" ++ column ++ ") as count FROM " ++ b.tableName.getD "" ++ wres.1,
      wres.2)

/-!  Transaction manager (TransactionManager.transaction). -/

/-- A statement issued on the connection by the transaction manager:
a driver-level begin/commit/rollback, or a raw SQL string sent through
`connection.query`. -/
inductive TxStmt where
  | beginTx : TxStmt
  | commitTx : TxStmt
  | rollbackTx : TxStmt
  | rawQuery : String → TxStmt
deriving DecidableEq, Repr

/-- The shape of a transaction callback body: `done r` finishes the body
with success (`r = none`) or by throwing the error `e` (`r = some e`);
`call sub rest` invokes `transaction(sub-callback)` and, if it returns
normally, continues with `rest`. -/
inductive TxBody where
  | done : Option String → TxBody
  | call : TxBody → TxBody → TxBody

/-- Run a callback body at the given current depth.  Returns the statements
issued on the connection, the final depth, and `none` on success or the
propagating error.  The `call` case inlines `TransactionManager.transaction`:
entry at depth 0 issues BEGIN, at depth > 0 a SAVEPOINT named from the
current depth; the depth is incremented around the nested body and
decremented before the unwind statement, which is COMMIT / RELEASE SAVEPOINT
on success and ROLLBACK / ROLLBACK TO SAVEPOINT on failure, the error being
rethrown. -/
def runTxBody : Nat → TxBody → List TxStmt × Nat × Option String
  | d, .done r => ([], d, r)
  | d, .call sub rest =>
    let entry : List TxStmt :=
      if d = 0 then [.beginTx] else [.rawQuery ("SAVEPOINT sp_level" ++ toString d)]
    let r := runTxBody (d + 1) sub
    let d2 := r.2.1 - 1
    match r.2.2 with
    | none =>
      let unwind : List TxStmt :=
        if d2 = 0 then [.commitTx]
        else [.rawQuery ("RELEASE SAVEPOINT sp_level" ++ toString d2)]
      let rr := runTxBody d2 rest
      (entry ++ r.1 ++ unwind ++ rr.1, rr.2)
    | some e =>
      let unwind : List TxStmt :=
        if d2 = 0 then [.rollbackTx]
        else [.rawQuery ("ROLLBACK TO SAVEPOINT sp_level" ++ toString d2)]
      (entry ++ r.1 ++ unwind, d2, some e)

/-- One call of `TransactionManager.transaction` with callback body `body`,
starting at depth `d`: the statements issued, the final depth and the
outcome (`none` = the callback's result is returned, `some e` = the
callback's error `e` is rethrown). -/
def transactionRun (d : Nat) (body : TxBody) : List TxStmt × Nat × Option String :=
  let entry : List TxStmt :=
    if d = 0 then [.beginTx] else [.rawQuery ("SAVEPOINT sp_level" ++ toString d)]
  let r := runTxBody (d + 1) body
  let d2 := r.2.1 - 1
  match r.2.2 with
  | none =>
    let unwind : List TxStmt :=
      if d2 = 0 then [.commitTx]
      else [.rawQuery ("RELEASE SAVEPOINT sp_level" ++ toString d2)]
    (entry ++ r.1 ++ unwind, d2, none)
  | some e =>
    let unwind : List TxStmt :=
      if d2 = 0 then [.rollbackTx]
      else [.rawQuery ("ROLLBACK TO SAVEPOINT sp_level" ++ toString d2)]
    (entry ++ r.1 ++ unwind, d2, some e)

/-!  Model attribute layer: dirty tracking and save (Model.ts). -/

/-- The attribute state of a persisted model instance (`exists = true`):
current attributes, the original snapshot used for dirty diffing, the
primary key name and the static timestamps flag. -/
structure MState where
  attributes : List (String × JsVal)
  original : List (String × JsVal)
  primaryKey : String
  timestamps : Bool

/-- The `getDirty` method: the attribute entries whose value differs (strict
inequality) from the original snapshot; a key missing from the snapshot
reads as undefined. -/
def getDirty (m : MState) : List (String × JsVal) :=
  m.attributes.filter (fun kv => !(lookupJs m.original kv.1 == kv.2))

/-- One `save()` call on a persisted model instance at wall-clock time
`now` (the already-formatted timestamp string).  Mirrors the `exists`
branch of `Model.save` without observers: missing/falsy primary key throws
(`none`); with timestamps enabled, `updateTimestamps` first writes
`updated_at` (a Date, serialized by `castAttributeForSave` to the formatted
string); then the dirty set is computed; an empty dirty set returns with no
query, otherwise an UPDATE is issued and the original snapshot resynced.
Returns the new state and whether an UPDATE query was issued. -/
def saveExisting (now : String) (m : MState) : Option (MState × Bool) :=
  let idVal := lookupJs m.attributes m.primaryKey
  if idVal.truthy = false then
    none
  else
    let m1 : MState :=
      if m.timestamps then
        { m with attributes := setJs m.attributes "updated_at" (.str now) }
      else m
    let dirty := getDirty m1
    if dirty.isEmpty then
      some (m1, false)
    else
      some ({ m1 with original := m1.attributes }, true)

/-!  Chunked fetching (QueryBuilder.chunk). -/

/-- The rows a cloned page query returns: the chunk loop clones the builder,
sets `limit(count)` and `offset((page - 1) * count)`, and the database
returns that slice of the matching rows. -/
def pageRows (tableRows : List JsVal) (count page : Nat) : List JsVal :=
  (tableRows.drop ((page - 1) * count)).take count

/-- The chunk loop with explicit fuel (the loop itself terminates because
the offset grows by `count` every iteration; `tableRows.length + 1` fuel is
always enough).  Returns the list of pages passed to the callback and the
boolean result: an empty page breaks returning true before the callback
runs, a callback returning false stops immediately returning false, a short
page breaks returning true after the callback. -/
def chunkAux (tableRows : List JsVal) (count : Nat) (cb : List JsVal → Nat → Bool) :
    Nat → Nat → List (List JsVal) × Bool
  | 0, _ => ([], true)
  | fuel + 1, page =>
    let results := pageRows tableRows count page
    if results.length = 0 then ([], true)
    else if cb results page = false then ([results], false)
    else if results.length < count then ([results], true)
    else
      let r := chunkAux tableRows count cb fuel (page + 1)
      (results :: r.1, r.2)

/-- The `chunk(count, callback)` terminal operation over a table whose
matching rows are `tableRows`: the pages delivered to the callback and the
returned boolean. -/
def chunkRun (tableRows : List JsVal) (count : Nat) (cb : List JsVal → Nat → Bool) :
    List (List JsVal) × Bool :=
  chunkAux tableRows count cb (tableRows.length + 1) 1

/-!  Read/write connection routing (PostgreSQLConnection, SQLiteConnection). -/

/-- Where a statement is executed: the read pool, the write pool, or the
exclusive transaction client. -/
inductive Target where
  | readPool : Target
  | writePool : Target
  | txClient : Target
deriving DecidableEq, Repr

/-- The connection state relevant to routing: whether a write pool is
configured and whether a transaction client is currently checked out. -/
structure ConnState where
  hasWrite : Bool
  inTx : Bool
deriving DecidableEq, Repr

/-- The whitespace class of the regular expression's leading matcher. -/
def jsWhitespace (c : Char) : Bool :=
  c == ' ' || c == '\t' || c == '\n' || c == '\r' || c == '\x0b' || c == '\x0c'

/-- Case-insensitive prefix match of a lowercase pattern against the input,
one character at a time, as the regex alternation engine does. -/
def matchPrefixCI : List Char → List Char → Bool
  | [], _ => true
  | _ :: _, [] => false
  | p :: ps, c :: cs => p == c.toLower && matchPrefixCI ps cs

/-- The write-statement keywords of the routing regular expression. -/
def writeKeywords : List String :=
  ["insert", "update", "delete", "create", "alter", "drop", "truncate", "replace"]

/-- The regex test `/^\s*(?:insert|update|delete|create|alter|drop|truncate|replace)/i`:
skip leading whitespace, then try each alternative as a case-insensitive
leading match. -/
def isWriteOperation (sql : String) : Bool :=
  let rest := sql.data.dropWhile jsWhitespace
  writeKeywords.any (fun k => matchPrefixCI k.data rest)

/-- Where `query(sql)` executes: the transaction client when one is checked
out, otherwise the write pool exactly for sniffed write statements when a
write pool exists, else the read pool. -/
def routeQuery (s : ConnState) (sql : String) : Target :=
  if s.inTx then .txClient
  else if isWriteOperation sql && s.hasWrite then .writePool
  else .readPool

/-- `beginTransaction`: fails if a transaction is already started, else
checks a client out of the master (write) pool. -/
def beginTransactionC (s : ConnState) : Except String ConnState :=
  if s.inTx then .error "Transaction already started"
  else .ok { s with inTx := true }

/-- `commit`: fails without a transaction, else releases the client. -/
def commitC (s : ConnState) : Except String ConnState :=
  if s.inTx then .ok { s with inTx := false }
  else .error "No transaction to commit"

/-- `rollback`: fails without a transaction, else releases the client. -/
def rollbackC (s : ConnState) : Except String ConnState :=
  if s.inTx then .ok { s with inTx := false }
  else .error "No transaction to rollback"

/-- Routing of a sequence of statements: `query` does not change the
connection state, so each statement is routed from the same state. -/
def routeAll (s : ConnState) (sqls : List String) : List Target :=
  sqls.map (routeQuery s)

/-!  BelongsToMany.sync over the pivot table. -/

/-- One pivot row: (foreign pivot key value, related pivot key value). -/
abbrev PivotRow := JsVal × JsVal

/-- The related ids currently stored in the pivot table for the parent
value `p` (the SELECT issued at the start of `sync`). -/
def existingPivotIds (pivot : List PivotRow) (p : JsVal) : List JsVal :=
  (pivot.filter (fun r => r.1 == p)).map (fun r => r.2)

/-- `BelongsToMany.sync(ids)`: diff the requested ids against the stored
pivot rows, attach the additions (INSERT one row per id, in order), then
detach the removals (one DELETE restricted to the parent and the removed
ids).  Returns the new pivot table, the attached ids and the detached
ids. -/
def syncPivot (pivot : List PivotRow) (p : JsVal) (ids : List JsVal) :
    List PivotRow × List JsVal × List JsVal :=
  let existingIds := existingPivotIds pivot p
  let toAttach := ids.filter (fun i => !(existingIds.contains i))
  let toDetach := existingIds.filter (fun i => !(ids.contains i))
  let afterAttach :=
    if toAttach.isEmpty then pivot
    else pivot ++ toAttach.map (fun i => (p, i))
  let afterDetach :=
    if toDetach.isEmpty then afterAttach
    else afterAttach.filter (fun r => !(r.1 == p && toDetach.contains r.2))
  (afterDetach, toAttach, toDetach)

/-!  MorphTo.get and the falsy-key guards of the relation getters. -/

/-- The outcome of `MorphTo.get`: the null result returned without any
query, or `find(id)` dispatched on the mapped model class. -/
inductive MorphOutcome where
  | nullResult : MorphOutcome
  | findDispatch (modelClass : String) (id : JsVal) : MorphOutcome
deriving DecidableEq, Repr

/-- The morph-map lookup `this.morphMap.get(morphType)`: the map is keyed by
strings, so a non-string stored type finds no entry. -/
def morphMapGet (map : List (String × String)) : JsVal → Option String
  | .str s => (map.find? (fun kv => kv.1 == s)).map (fun kv => kv.2)
  | _ => none

/-- The error message thrown for an unmapped morph type. -/
def morphErrMsg (t : JsVal) : String :=
  "No morph map entry for type \x22" ++ t.coerceStr ++ "\x22. " ++
    "Call .map(\x7b \x27" ++ t.coerceStr ++ "\x27: YourModel \x7d) on this MorphTo instance."

/-- `MorphTo.get()`: read the stored type and id off the parent; a falsy
type or id returns null; an unmapped type throws the no-morph-map-entry
error; otherwise `find(id)` is dispatched on the mapped class. -/
def morphToGet (parentAttrs : List (String × JsVal)) (morphTypeCol morphIdCol : String)
    (map : List (String × String)) : Except String MorphOutcome :=
  let t := lookupJs parentAttrs morphTypeCol
  let i := lookupJs parentAttrs morphIdCol
  if t.truthy = false || i.truthy = false then
    .ok .nullResult
  else
    match morphMapGet map t with
    | none => .error (morphErrMsg t)
    | some cls => .ok (.findDispatch cls i)

/-- The action a relation getter takes: return null or an empty list with
no database query, or run its fetch query correlated on the given key
value. -/
inductive RelAction where
  | returnNull : RelAction
  | returnEmptyList : RelAction
  | fetchFirst (keyColumn : String) (keyValue : JsVal) : RelAction
  | fetchAll (keyColumn : String) (keyValue : JsVal) : RelAction
  | fetchPivot (parentKeyValue : JsVal) : RelAction
deriving DecidableEq, Repr

/-- `HasOne.get()`: a falsy parent local-key value returns null without a
query, otherwise the related table is fetched with `first()` filtered on
the foreign key. -/
def hasOneGet (parentAttrs : List (String × JsVal)) (foreignKey localKey : String) :
    RelAction :=
  let v := lookupJs parentAttrs localKey
  if v.truthy = false then .returnNull else .fetchFirst foreignKey v

/-- `HasMany.get()`: a falsy parent local-key value returns an empty list
without a query. -/
def hasManyGet (parentAttrs : List (String × JsVal)) (foreignKey localKey : String) :
    RelAction :=
  let v := lookupJs parentAttrs localKey
  if v.truthy = false then .returnEmptyList else .fetchAll foreignKey v

/-- `BelongsTo.get()`: a falsy parent foreign-key value returns null
without a query, otherwise the owner is fetched by its owner key. -/
def belongsToGet (parentAttrs : List (String × JsVal)) (foreignKey ownerKey : String) :
    RelAction :=
  let v := lookupJs parentAttrs foreignKey
  if v.truthy = false then .returnNull else .fetchFirst ownerKey v

/-- `BelongsToMany.get()`: a falsy parent-key value returns an empty list
without a query, otherwise the pivot join query runs. -/
def belongsToManyGet (parentAttrs : List (String × JsVal)) (parentKey : String) :
    RelAction :=
  let v := lookupJs parentAttrs parentKey
  if v.truthy = false then .returnEmptyList else .fetchPivot v

/-!  Helper lemmas. -/

/-- The depth field of the transaction manager is restored by running any
callback body: every nested `transaction` call decrements on its unwind
path exactly what it incremented at entry. -/
theorem runTxBody_depth (body : TxBody) : ∀ d : Nat, (runTxBody d body).2.1 = d := by
  induction body with
  | done r => intro d; simp [runTxBody]
  | call sub rest ihs ihr =>
    intro d
    simp only [runTxBody]
    rcases h : (runTxBody (d + 1) sub).2.2 with _ | e
    · simp only [h, ihr]
      rw [ihs (d + 1)]
      omega
    · simp only [h]
      rw [ihs (d + 1)]
      omega

/-- C9: on a query builder with no table set, every terminal operation
(get, first, insert, update, delete, count) fails with the configuration
error "Table name is required" before any query is dispatched to the
connection, and no I/O occurs (no query plan is produced). -/
theorem no_table_precondition_error (b : BuilderQ)
    (rows : List (List (String × JsVal))) (data : List (String × JsVal))
    (col : String) (h : b.tableName = none) :
    getPlan b = .error "Table name is required" ∧
    firstPlan b = .error "Table name is required" ∧
    insertPlan b rows = .error "Table name is required" ∧
    updatePlan b data = .error "Table name is required" ∧
    deletePlan b = .error "Table name is required" ∧
    countPlan b col = .error "Table name is required" := by
  refine ⟨?_, ?_, ?_, ?_, ?_, ?_⟩ <;>
    simp [getPlan, firstPlan, buildSelectQuery, BuilderQ.limitM, insertPlan,
      updatePlan, deletePlan, countPlan, h, tableTruthy]

/-- C9 witness at a concrete builder with no table set. -/
theorem no_table_precondition_error_witness :
    (({} : BuilderQ).tableName = none) ∧
    getPlan {} = .error "Table name is required" ∧
    firstPlan {} = .error "Table name is required" ∧
    insertPlan {} [[("a", JsVal.num 1)]] = .error "Table name is required" ∧
    updatePlan {} [("a", JsVal.num 1)] = .error "Table name is required" ∧
    deletePlan {} = .error "Table name is required" ∧
    countPlan {} "*" = .error "Table name is required" :=
  ⟨rfl, no_table_precondition_error {} [[("a", JsVal.num 1)]] [("a", JsVal.num 1)] "*" rfl⟩

/-- C10: a HasOne, HasMany, BelongsTo or BelongsToMany relation whose
parent correlating key attribute is absent, null or otherwise falsy
returns null (to-one) or an empty list (to-many) from `get()` without
issuing any database query. -/
theorem falsy_parent_key_guard (parentAttrs : List (String × JsVal))
    (foreignKey ownerKey key : String)
    (h : (lookupJs parentAttrs key).truthy = false) :
    hasOneGet parentAttrs foreignKey key = .returnNull ∧
    hasManyGet parentAttrs foreignKey key = .returnEmptyList ∧
    belongsToGet parentAttrs key ownerKey = .returnNull ∧
    belongsToManyGet parentAttrs key = .returnEmptyList := by
  refine ⟨?_, ?_, ?_, ?_⟩ <;>
    simp [hasOneGet, hasManyGet, belongsToGet, belongsToManyGet, h]

/-- C10 witness: a parent whose key attribute is absent (hence undefined)
takes every guard. -/
theorem falsy_parent_key_guard_witness :
    ((lookupJs [] "id").truthy = false) ∧
    hasOneGet [] "fk" "id" = .returnNull ∧
    hasManyGet [] "fk" "id" = .returnEmptyList ∧
    belongsToGet [] "id" "pk" = .returnNull ∧
    belongsToManyGet [] "id" = .returnEmptyList :=
  ⟨by decide, falsy_parent_key_guard [] "fk" "pk" "id" (by decide)⟩

/-- C7: `MorphTo.get()` on a parent carrying a truthy (non-empty string)
morph type and a truthy morph id throws the no-morph-map-entry error naming
the unmapped type when the type has no entry in the registered map, and
dispatches `find(id)` on the mapped model class when a mapping exists. -/
theorem morphTo_unmapped_type_throws (parentAttrs : List (String × JsVal))
    (morphTypeCol morphIdCol : String) (map : List (String × String)) (s : String)
    (hs : lookupJs parentAttrs morphTypeCol = .str s) (hns : s ≠ "")
    (hid : (lookupJs parentAttrs morphIdCol).truthy = true) :
    (morphMapGet map (.str s) = none →
      morphToGet parentAttrs morphTypeCol morphIdCol map = .error (morphErrMsg (.str s))) ∧
    (∀ cls, morphMapGet map (.str s) = some cls →
      morphToGet parentAttrs morphTypeCol morphIdCol map =
        .ok (.findDispatch cls (lookupJs parentAttrs morphIdCol))) := by
  constructor
  · intro hmap
    simp only [morphToGet, hs, hid]
    simp [JsVal.truthy, hns, hmap]
  · intro cls hmap
    simp only [morphToGet, hs, hid]
    simp [JsVal.truthy, hns, hmap]

/-- C7 witness: a parent storing type "Post" and id 3 against an empty
morph map throws; against a map with an entry for "Post" it dispatches. -/
theorem morphTo_unmapped_type_throws_witness :
    (lookupJs [("t", JsVal.str "Post"), ("i", JsVal.num 3)] "t" = .str "Post") ∧
    ((morphMapGet [] (.str "Post") = none →
      morphToGet [("t", JsVal.str "Post"), ("i", JsVal.num 3)] "t" "i" [] =
        .error (morphErrMsg (.str "Post"))) ∧
    (∀ cls, morphMapGet [] (.str "Post") = some cls →
      morphToGet [("t", JsVal.str "Post"), ("i", JsVal.num 3)] "t" "i" [] =
        .ok (.findDispatch cls (lookupJs [("t", JsVal.str "Post"), ("i", JsVal.num 3)] "i")))) :=
  ⟨by decide, morphTo_unmapped_type_throws [("t", JsVal.str "Post"), ("i", JsVal.num 3)]
    "t" "i" [] "Post" (by decide) (by decide) (by decide)⟩

/-- C2: a `transaction(callback)` call entered at depth 0 issues BEGIN and
at depth d > 0 issues SAVEPOINT sp_level d; after the callback the depth is
back to d and the unwind statement is computed from that same d, so the
savepoint name on the unwind path (COMMIT / RELEASE SAVEPOINT sp_level d on
success, ROLLBACK / ROLLBACK TO SAVEPOINT sp_level d on failure) is
identical to the name issued at entry; the callback's error is always
rethrown, never swallowed.  The second conjunct ties a nested call inside a
callback body to the same `transactionRun` semantics. -/
theorem transaction_savepoint_symmetry (d : Nat) (body : TxBody) :
    (transactionRun d body =
      ((if d = 0 then [TxStmt.beginTx]
        else [TxStmt.rawQuery ("SAVEPOINT sp_level" ++ toString d)]) ++
        (runTxBody (d + 1) body).1 ++
        (match (runTxBody (d + 1) body).2.2 with
         | none =>
            if d = 0 then [TxStmt.commitTx]
            else [TxStmt.rawQuery ("RELEASE SAVEPOINT sp_level" ++ toString d)]
         | some _ =>
            if d = 0 then [TxStmt.rollbackTx]
            else [TxStmt.rawQuery ("ROLLBACK TO SAVEPOINT sp_level" ++ toString d)]),
       d, (runTxBody (d + 1) body).2.2)) ∧
    (∀ sub rest, runTxBody d (.call sub rest) =
      (match transactionRun d sub with
       | (stmts, d1, none) => (stmts ++ (runTxBody d1 rest).1, (runTxBody d1 rest).2)
       | (stmts, d1, some e) => (stmts, d1, some e))) := by
  constructor
  · have hd : (runTxBody (d + 1) body).2.1 = d + 1 := runTxBody_depth body (d + 1)
    simp only [transactionRun, hd, Nat.add_sub_cancel]
    rcases h : (runTxBody (d + 1) body).2.2 with _ | e <;> simp [h, List.append_assoc]
  · intro sub rest
    have hd : (runTxBody (d + 1) sub).2.1 = d + 1 := runTxBody_depth sub (d + 1)
    simp only [runTxBody, transactionRun, hd, Nat.add_sub_cancel]
    rcases h : (runTxBody (d + 1) sub).2.2 with _ | e <;> simp [h, List.append_assoc]

/-- C8 counterexample: at the JavaScript value `undefined` the two forms
diverge.  `where(c, undefined)` stores undefined as the binding, while
`where(c, '=', undefined)` triggers the omitted-argument branch and stores
the string "=" as the binding, so the compiled bindings arrays differ. -/
theorem where_two_vs_three_arg_counterexample :
    buildSelectQuery ((BuilderQ.table {} "t").whereM "c" .undefV .undefV) =
      .ok ("SELECT * FROM t WHERE c = ?", [JsVal.undefV]) ∧
    buildSelectQuery ((BuilderQ.table {} "t").whereM "c" (.str "=") .undefV) =
      .ok ("SELECT * FROM t WHERE c = ?", [JsVal.str "="]) ∧
    (JsVal.undefV :: ([] : List JsVal)) ≠ [JsVal.str "="] := by
  refine ⟨?_, ?_, by decide⟩ <;> rfl

/-- C8 (amended): for every column c and every value v other than
undefined, `where(c, v)` and `where(c, '=', v)` append the same basic
clause, so the two builder states are equal and compile to identical SQL
text and identical bindings arrays.  (At v = undefined the three-argument
form reinterprets the operator "=" as the value, so the bindings differ.) -/
theorem where_two_vs_three_arg_equal (b : BuilderQ) (c : String) (v : JsVal)
    (hv : v ≠ .undefV) :
    b.whereM c v .undefV = b.whereM c (.str "=") v ∧
    buildSelectQuery (b.whereM c v .undefV) = buildSelectQuery (b.whereM c (.str "=") v) := by
  have h : b.whereM c v .undefV = b.whereM c (.str "=") v := by
    simp [BuilderQ.whereM, hv]
  exact ⟨h, by rw [h]⟩

/-- C8 witness at the value 5. -/
theorem where_two_vs_three_arg_equal_witness :
    (JsVal.num 5 ≠ .undefV) ∧
    (BuilderQ.whereM {} "c" (.num 5) .undefV = BuilderQ.whereM {} "c" (.str "=") (.num 5) ∧
     buildSelectQuery (BuilderQ.whereM {} "c" (.num 5) .undefV) =
       buildSelectQuery (BuilderQ.whereM {} "c" (.str "=") (.num 5))) :=
  ⟨by decide, where_two_vs_three_arg_equal {} "c" (.num 5) (by decide)⟩

/-- C6: when the pivot table holds related ids [1, 2] for the parent,
`sync([2, 3])` attaches exactly the set difference 3, detaches exactly the
set difference 1, leaves the row for 2 untouched in place (the final table
is the old table minus the parent's row for 1 plus an appended row for 3),
and the resulting pivot membership for the parent is exactly [2, 3]. -/
theorem sync_diff_membership (pivot : List PivotRow) (p : JsVal)
    (h : existingPivotIds pivot p = [.num 1, .num 2]) :
    syncPivot pivot p [.num 2, .num 3] =
      (pivot.filter (fun r => !(r.1 == p && r.2 == JsVal.num 1)) ++ [(p, JsVal.num 3)],
       [JsVal.num 3], [JsVal.num 1]) ∧
    existingPivotIds (syncPivot pivot p [.num 2, .num 3]).1 p =
      [JsVal.num 2, JsVal.num 3] := by
  have e1 : syncPivot pivot p [.num 2, .num 3] =
      (pivot.filter (fun r => !(r.1 == p && r.2 == JsVal.num 1)) ++ [(p, JsVal.num 3)],
       [JsVal.num 3], [JsVal.num 1]) := by
    simp only [syncPivot, h]
    norm_num [List.filter_append, List.contains_cons]
    rfl
  refine ⟨e1, ?_⟩
  rw [e1]
  simp only [existingPivotIds, List.filter_append, List.filter_filter]
  have hpred : (fun a : PivotRow => a.1 == p && !(a.1 == p && a.2 == JsVal.num 1)) =
      (fun a : PivotRow => !(a.2 == JsVal.num 1) && a.1 == p) := by
    funext a; cases hq : (a.1 == p) <;> simp [hq]
  rw [hpred, ← List.filter_filter]
  have h3 : List.filter (fun r : PivotRow => r.1 == p) [(p, JsVal.num 3)] =
      [(p, JsVal.num 3)] := by simp
  rw [h3, List.map_append]
  have h4 : (List.filter (fun a : PivotRow => !(a.2 == JsVal.num 1))
        (List.filter (fun r : PivotRow => r.1 == p) pivot)).map (fun r => r.2) =
      ((List.filter (fun r : PivotRow => r.1 == p) pivot).map (fun r => r.2)).filter
        (fun v => !(v == JsVal.num 1)) := by
    rw [List.filter_map]; rfl
  simp only [existingPivotIds] at h
  rw [h4, h]
  rfl

/-- C6 witness on a concrete pivot table holding rows (7,1) and (7,2). -/
theorem sync_diff_membership_witness :
    (existingPivotIds [(JsVal.num 7, JsVal.num 1), (JsVal.num 7, JsVal.num 2)] (.num 7) =
      [.num 1, .num 2]) ∧
    (syncPivot [(JsVal.num 7, JsVal.num 1), (JsVal.num 7, JsVal.num 2)] (.num 7)
        [.num 2, .num 3] =
      ([(JsVal.num 7, JsVal.num 1), (JsVal.num 7, JsVal.num 2)].filter
          (fun r => !(r.1 == JsVal.num 7 && r.2 == JsVal.num 1)) ++ [(JsVal.num 7, JsVal.num 3)],
       [JsVal.num 3], [JsVal.num 1]) ∧
     existingPivotIds
        (syncPivot [(JsVal.num 7, JsVal.num 1), (JsVal.num 7, JsVal.num 2)] (.num 7)
          [.num 2, .num 3]).1 (.num 7) = [JsVal.num 2, JsVal.num 3]) :=
  ⟨by decide, sync_diff_membership [(JsVal.num 7, JsVal.num 1), (JsVal.num 7, JsVal.num 2)]
    (.num 7) (by decide)⟩

/-!  Association-list lemmas for the model attribute layer (claim C3). -/

/-- Searching an appended list when the first part has no match. -/
theorem find?_append_of_none {α : Type} (p : α → Bool) (l1 l2 : List α)
    (h : l1.find? p = none) : (l1 ++ l2).find? p = l2.find? p := by
  induction l1 with
  | nil => simp
  | cons hd tl ih =>
    rw [List.find?_cons] at h
    cases hb : p hd with
    | true => simp [hb] at h
    | false =>
      simp only [hb] at h
      simp only [List.cons_append, List.find?_cons, hb]
      exact ih h

/-- Searching an appended list when the first part has a match. -/
theorem find?_append_of_some {α : Type} (p : α → Bool) (l1 l2 : List α) (x : α)
    (h : l1.find? p = some x) : (l1 ++ l2).find? p = some x := by
  induction l1 with
  | nil => simp at h
  | cons hd tl ih =>
    rw [List.find?_cons] at h
    cases hb : p hd with
    | true =>
      simp only [hb] at h
      simp only [List.cons_append, List.find?_cons, hb, h]
    | false =>
      simp only [hb] at h
      simp only [List.cons_append, List.find?_cons, hb]
      exact ih h

/-- The in-place update written by `setJs` never changes an entry key. -/
theorem updKey_fst (k : String) (v : JsVal) (kv : String × JsVal) :
    (if (kv.1 == k) = true then (kv.1, v) else kv).1 = kv.1 := by
  by_cases hb : (kv.1 == k) = true <;> simp [hb]

/-- Key predicates are unchanged by the in-place update of `setJs`. -/
theorem updKey_comp (k k2 : String) (v : JsVal) :
    ((fun kv : String × JsVal => kv.1 == k2) ∘
      (fun kv : String × JsVal => if (kv.1 == k) = true then (kv.1, v) else kv)) =
    (fun kv : String × JsVal => kv.1 == k2) := by
  funext kv
  by_cases hb : kv.1 = k <;> simp [Function.comp, hb]

/-- Reading back the key just written by `setJs` yields the written value. -/
theorem lookupJs_setJs_self (l : List (String × JsVal)) (k : String) (v : JsVal) :
    lookupJs (setJs l k v) k = v := by
  by_cases hmem : l.any (fun kv => kv.1 == k) = true
  · simp only [setJs, hmem, if_true, lookupJs, List.find?_map, updKey_comp]
    rcases hf : l.find? (fun kv => kv.1 == k) with _ | kv0
    · rw [List.find?_eq_none] at hf
      rw [List.any_eq_true] at hmem
      obtain ⟨a, ha, hpa⟩ := hmem
      exact absurd hpa (hf a ha)
    · have hk0 := List.find?_some hf
      rw [hf]
      rw [beq_iff_eq] at hk0
      simp [hk0]
  · have hmemb : l.any (fun kv => kv.1 == k) = false := by
      rwa [Bool.not_eq_true] at hmem
    simp only [setJs, hmemb, Bool.false_eq_true, if_false, lookupJs]
    have hnone : l.find? (fun kv => kv.1 == k) = none := by
      rw [List.find?_eq_none]
      intro a ha hc
      have : l.any (fun kv => kv.1 == k) = true := List.any_eq_true.mpr ⟨a, ha, hc⟩
      rw [hmemb] at this
      cases this
    rw [find?_append_of_none _ _ _ hnone]
    simp [List.find?_cons]

/-- Writing one key with `setJs` leaves reads of any other key unchanged. -/
theorem lookupJs_setJs_ne (l : List (String × JsVal)) (k k2 : String) (v : JsVal)
    (hne : k2 ≠ k) : lookupJs (setJs l k v) k2 = lookupJs l k2 := by
  have hbk : (k == k2) = false := by
    rw [beq_eq_false_iff_ne]
    exact fun hc => hne hc.symm
  by_cases hmem : l.any (fun kv => kv.1 == k) = true
  · simp only [setJs, hmem, if_true, lookupJs, List.find?_map, updKey_comp]
    rcases hf : l.find? (fun kv => kv.1 == k2) with _ | kv0
    · rw [hf]
      rfl
    · rw [hf]
      have hk0 := List.find?_some hf
      have hk0k : kv0.1 ≠ k := by
        rw [beq_iff_eq] at hk0
        exact fun hc => hne (by rw [← hk0, hc])
      simp [hk0k]
  · have hmemb : l.any (fun kv => kv.1 == k) = false := by
      rwa [Bool.not_eq_true] at hmem
    simp only [setJs, hmemb, Bool.false_eq_true, if_false, lookupJs]
    rcases hf : l.find? (fun kv => kv.1 == k2) with _ | kv0
    · rw [find?_append_of_none _ _ _ hf, hf]
      simp [List.find?_cons, hbk]
    · rw [find?_append_of_some _ _ _ _ hf, hf]

/-- `setJs` preserves duplicate-freedom of the key set. -/
theorem setJs_keys_nodup (l : List (String × JsVal)) (k : String) (v : JsVal)
    (hnd : (l.map Prod.fst).Nodup) : ((setJs l k v).map Prod.fst).Nodup := by
  by_cases hmem : l.any (fun kv => kv.1 == k) = true
  · simp only [setJs, hmem, if_true, List.map_map]
    have hkeys : (Prod.fst ∘ (fun kv : String × JsVal =>
        if (kv.1 == k) = true then (kv.1, v) else kv)) = Prod.fst := by
      funext kv
      by_cases hb : kv.1 = k <;> simp [Function.comp, hb]
    rw [hkeys]
    exact hnd
  · have hmemb : l.any (fun kv => kv.1 == k) = false := by
      rwa [Bool.not_eq_true] at hmem
    simp only [setJs, hmemb, Bool.false_eq_true, if_false, List.map_append, List.map_cons,
      List.map_nil]
    rw [List.nodup_append]
    refine ⟨hnd, List.nodup_singleton k, ?_⟩
    intro a ha
    simp only [List.mem_singleton]
    rw [List.mem_map] at ha
    obtain ⟨kv, hkv, hfst⟩ := ha
    intro hak
    have : l.any (fun kv => kv.1 == k) = true :=
      List.any_eq_true.mpr ⟨kv, hkv, by rw [beq_iff_eq, hfst, hak]⟩
    rw [hmemb] at this
    cases this

/-- With duplicate-free keys, every stored entry is read back exactly. -/
theorem lookupJs_of_mem_nodup (l : List (String × JsVal)) (kv : String × JsVal)
    (hnd : (l.map Prod.fst).Nodup) (hmem : kv ∈ l) : lookupJs l kv.1 = kv.2 := by
  induction l with
  | nil => cases hmem
  | cons hd tl ih =>
    rcases List.mem_cons.mp hmem with heq | htl
    · subst heq
      simp [lookupJs, List.find?_cons]
    · have hhd : hd.1 ≠ kv.1 := by
        intro hc
        have : kv.1 ∈ tl.map Prod.fst := List.mem_map.mpr ⟨kv, htl, rfl⟩
        rw [List.map_cons, List.nodup_cons] at hnd
        exact hnd.1 (hc ▸ this)
      have hb : (hd.1 == kv.1) = false := by rwa [beq_eq_false_iff_ne]
      simp only [lookupJs, List.find?_cons, hb]
      have hndtl : (tl.map Prod.fst).Nodup := by
        rw [List.map_cons, List.nodup_cons] at hnd
        exact hnd.2
      exact ih hndtl htl

/-- Writing a value that is already stored under the key (keys
duplicate-free, value defined) leaves the object unchanged. -/
theorem setJs_eq_self (l : List (String × JsVal)) (k : String) (v : JsVal)
    (hnd : (l.map Prod.fst).Nodup) (hv : lookupJs l k = v) (hvu : v ≠ .undefV) :
    setJs l k v = l := by
  have hfind : ∃ kv0, l.find? (fun kv => kv.1 == k) = some kv0 := by
    rcases hf : l.find? (fun kv => kv.1 == k) with _ | kv0
    · simp only [lookupJs, hf] at hv
      exact absurd hv.symm hvu
    · exact ⟨kv0, hf⟩
  obtain ⟨kv0, hf⟩ := hfind
  have hmem : l.any (fun kv => kv.1 == k) = true := by
    rw [List.any_eq_true]
    have hp := List.find?_some hf
    exact ⟨kv0, List.mem_of_find?_eq_some hf, hp⟩
  simp only [setJs, hmem, if_true]
  have hid : ∀ kv ∈ l, (if (kv.1 == k) = true then (kv.1, v) else kv) = kv := by
    intro kv hkv
    by_cases hb : kv.1 = k
    · have hlook : lookupJs l kv.1 = kv.2 := lookupJs_of_mem_nodup l kv hnd hkv
      rw [hb, hv] at hlook
      rw [hlook]
      by_cases hc : (kv.1 == k) = true <;> simp [hc]
    · simp [hb]
  calc l.map (fun kv => if (kv.1 == k) = true then (kv.1, v) else kv)
      = l.map id := List.map_congr_left hid
    _ = l := List.map_id l

/-- A model whose original snapshot equals its attributes has an empty
dirty set. -/
theorem getDirty_synced (mm : MState) (hnd : (mm.attributes.map Prod.fst).Nodup)
    (h : mm.original = mm.attributes) : getDirty mm = [] := by
  simp only [getDirty, h]
  rw [List.filter_eq_nil_iff]
  intro kv hkv
  have := lookupJs_of_mem_nodup mm.attributes kv hnd hkv
  simp [this]

/-- C3 (amended): on a persisted model whose attribute keys are
duplicate-free and whose primary key is not the updated_at column, if the
model does not use timestamps, or the formatted timestamp of the second
save equals that of the first, then a second `save()` with no intervening
attribute changes finds the dirty set empty and performs no query.  (With
timestamps enabled and a later clock second, `updateTimestamps` re-dirties
updated_at and the second save issues another UPDATE.) -/
theorem save_second_noop (m : MState) (nowA nowB : String)
    (hnd : (m.attributes.map Prod.fst).Nodup)
    (hpk : m.primaryKey ≠ "updated_at")
    (hts : m.timestamps = false ∨ nowB = nowA)
    (m1 : MState) (q1 : Bool)
    (hsave : saveExisting nowA m = some (m1, q1)) :
    saveExisting nowB m1 = some (m1, false) := by
  simp only [saveExisting] at hsave
  by_cases h0 : (lookupJs m.attributes m.primaryKey).truthy = false
  · simp [h0] at hsave
  · have h0t : (lookupJs m.attributes m.primaryKey).truthy = true := by
      rwa [Bool.not_eq_false] at h0
    simp only [h0t, Bool.true_eq_false, if_false] at hsave
    cases hts0 : m.timestamps with
    | false =>
      simp only [hts0, Bool.false_eq_true, if_false] at hsave
      by_cases hd : (getDirty m).isEmpty = true
      · simp only [hd, if_true, Option.some_inj] at hsave
        injection hsave with h1 h2
        subst h1
        simp [saveExisting, h0t, hts0, hd]
      · have hdb : (getDirty m).isEmpty = false := by
          rwa [Bool.not_eq_true] at hd
        simp only [hdb, Bool.false_eq_true, if_false, Option.some_inj] at hsave
        injection hsave with h1 h2
        subst h1
        have hd2 : getDirty (MState.mk m.attributes m.attributes m.primaryKey false) = [] :=
          getDirty_synced _ hnd rfl
        simp [saveExisting, h0t, hts0, hd2]
    | true =>
      have hBA : nowB = nowA := hts.resolve_left (by simp [hts0])
      rw [hBA]
      simp only [hts0, if_true] at hsave
      have hndA : ((setJs m.attributes "updated_at" (JsVal.str nowA)).map Prod.fst).Nodup :=
        setJs_keys_nodup _ _ _ hnd
      have hpkA : lookupJs (setJs m.attributes "updated_at" (JsVal.str nowA)) m.primaryKey =
          lookupJs m.attributes m.primaryKey :=
        lookupJs_setJs_ne _ _ _ _ hpk
      have hsetA : setJs (setJs m.attributes "updated_at" (JsVal.str nowA)) "updated_at"
          (JsVal.str nowA) = setJs m.attributes "updated_at" (JsVal.str nowA) :=
        setJs_eq_self _ _ _ hndA (lookupJs_setJs_self _ _ _) (by intro hc; cases hc)
      by_cases hd : (getDirty (MState.mk (setJs m.attributes "updated_at" (JsVal.str nowA))
          m.original m.primaryKey true)).isEmpty = true
      · simp only [hd, if_true, Option.some_inj] at hsave
        injection hsave with h1 h2
        subst h1
        simp [saveExisting, hpkA, h0t, hts0, hsetA, hd]
      · have hdb : (getDirty (MState.mk (setJs m.attributes "updated_at" (JsVal.str nowA))
            m.original m.primaryKey true)).isEmpty = false := by
          rwa [Bool.not_eq_true] at hd
        simp only [hdb, Bool.false_eq_true, if_false, Option.some_inj] at hsave
        injection hsave with h1 h2
        subst h1
        have hd2 : getDirty (MState.mk (setJs m.attributes "updated_at" (JsVal.str nowA))
            (setJs m.attributes "updated_at" (JsVal.str nowA)) m.primaryKey true) = [] :=
          getDirty_synced _ hndA rfl
        simp [saveExisting, hpkA, h0t, hts0, hsetA, hd2]

/-- C3 counterexample: a persisted model with timestamps enabled (the
default), saved twice with no intervening attribute changes across two
distinct formatted clock seconds, issues an UPDATE on both saves: the
second save's `updateTimestamps` rewrites updated_at before the dirty
check, so the dirty set is not empty and a second query is performed. -/
theorem save_twice_counterexample :
    saveExisting "2024-01-01 00:00:00"
      (MState.mk [("id", JsVal.num 1)] [("id", JsVal.num 1)] "id" true) =
      some (MState.mk [("id", JsVal.num 1), ("updated_at", JsVal.str "2024-01-01 00:00:00")]
        [("id", JsVal.num 1), ("updated_at", JsVal.str "2024-01-01 00:00:00")] "id" true,
        true) ∧
    saveExisting "2024-01-01 00:00:01"
      (MState.mk [("id", JsVal.num 1), ("updated_at", JsVal.str "2024-01-01 00:00:00")]
        [("id", JsVal.num 1), ("updated_at", JsVal.str "2024-01-01 00:00:00")] "id" true) =
      some (MState.mk [("id", JsVal.num 1), ("updated_at", JsVal.str "2024-01-01 00:00:01")]
        [("id", JsVal.num 1), ("updated_at", JsVal.str "2024-01-01 00:00:01")] "id" true,
        true) :=
  ⟨rfl, rfl⟩

/-- C3 witness: a timestamps-disabled model saved twice; the first save
issues the UPDATE, the second is a no-op. -/
theorem save_second_noop_witness :
    ((([("id", JsVal.num 1), ("name", JsVal.str "a")] :
        List (String × JsVal)).map Prod.fst).Nodup) ∧
    (("id" : String) ≠ "updated_at") ∧
    (saveExisting "t1" (MState.mk [("id", JsVal.num 1), ("name", JsVal.str "a")]
        [("id", JsVal.num 1)] "id" false) =
      some (MState.mk [("id", JsVal.num 1), ("name", JsVal.str "a")]
        [("id", JsVal.num 1), ("name", JsVal.str "a")] "id" false, true)) ∧
    saveExisting "t2" (MState.mk [("id", JsVal.num 1), ("name", JsVal.str "a")]
        [("id", JsVal.num 1), ("name", JsVal.str "a")] "id" false) =
      some (MState.mk [("id", JsVal.num 1), ("name", JsVal.str "a")]
        [("id", JsVal.num 1), ("name", JsVal.str "a")] "id" false, false) :=
  ⟨by decide, by decide, rfl,
    save_second_noop
      (MState.mk [("id", JsVal.num 1), ("name", JsVal.str "a")] [("id", JsVal.num 1)] "id" false)
      "t1" "t2" (by decide) (by decide) (Or.inl rfl) _ true rfl⟩

/-- Unfolding equation of one iteration of the chunk loop. -/
theorem chunkAux_step (t : List JsVal) (c : Nat) (cb : List JsVal → Nat → Bool)
    (f page : Nat) :
    chunkAux t c cb (f + 1) page =
      (if (pageRows t c page).length = 0 then ([], true)
       else if cb (pageRows t c page) page = false then ([pageRows t c page], false)
       else if (pageRows t c page).length < c then ([pageRows t c page], true)
       else
         ((pageRows t c page) :: (chunkAux t c cb f (page + 1)).1,
          (chunkAux t c cb f (page + 1)).2)) := rfl

/-- C4 (amended): for every chunk size n with 3 <= n and a table holding
exactly 3n+2 matching rows, chunk(n, cb) delivers page i as the slice with
offset (i-1)*n and limit n of the rows, the four pages have sizes n, n, n
and 2, concatenate to exactly the table (no row fetched twice), the
callback is invoked exactly four times when it never returns false (the
run stops after the short fourth page and returns true), and a callback
returning false on any page stops the run immediately with that page last
and returns false. -/
theorem chunk_3n2_pages (n : Nat) (hn : 3 ≤ n) (tableRows : List JsVal)
    (hlen : tableRows.length = 3 * n + 2) (cb : List JsVal → Nat → Bool) :
    ((pageRows tableRows n 1).length = n ∧ (pageRows tableRows n 2).length = n ∧
     (pageRows tableRows n 3).length = n ∧ (pageRows tableRows n 4).length = 2) ∧
    pageRows tableRows n 1 ++ pageRows tableRows n 2 ++ pageRows tableRows n 3 ++
      pageRows tableRows n 4 = tableRows ∧
    chunkRun tableRows n cb =
      (if cb (pageRows tableRows n 1) 1 = false then ([pageRows tableRows n 1], false)
       else if cb (pageRows tableRows n 2) 2 = false then
         ([pageRows tableRows n 1, pageRows tableRows n 2], false)
       else if cb (pageRows tableRows n 3) 3 = false then
         ([pageRows tableRows n 1, pageRows tableRows n 2, pageRows tableRows n 3], false)
       else if cb (pageRows tableRows n 4) 4 = false then
         ([pageRows tableRows n 1, pageRows tableRows n 2, pageRows tableRows n 3,
           pageRows tableRows n 4], false)
       else ([pageRows tableRows n 1, pageRows tableRows n 2, pageRows tableRows n 3,
           pageRows tableRows n 4], true)) := by
  have hp1 : (pageRows tableRows n 1).length = n := by
    simp [pageRows, List.length_take, List.length_drop, hlen]
    omega
  have hp2 : (pageRows tableRows n 2).length = n := by
    simp [pageRows, List.length_take, List.length_drop, hlen]
    omega
  have hp3 : (pageRows tableRows n 3).length = n := by
    simp [pageRows, List.length_take, List.length_drop, hlen]
    omega
  have hp4 : (pageRows tableRows n 4).length = 2 := by
    simp [pageRows, List.length_take, List.length_drop, hlen]
    omega
  have e1 : pageRows tableRows n 1 = tableRows.take n := by
    simp [pageRows]
  have e2 : pageRows tableRows n 2 = (tableRows.drop n).take n := by
    simp [pageRows]
  have e3 : pageRows tableRows n 3 = ((tableRows.drop n).drop n).take n := by
    have : (3 - 1) * n = n + n := by ring
    simp [pageRows, this, List.drop_drop]
  have e4 : pageRows tableRows n 4 = ((tableRows.drop n).drop n).drop n := by
    have h34 : (4 - 1) * n = n + n + n := by ring
    have hdd : tableRows.drop (n + n + n) = ((tableRows.drop n).drop n).drop n := by
      rw [List.drop_drop, List.drop_drop]
      ring_nf
    have hlen3 : (((tableRows.drop n).drop n).drop n).length ≤ n := by
      simp [List.length_drop, hlen]
      omega
    rw [pageRows, h34, hdd, List.take_of_length_le hlen3]
  have hcat : pageRows tableRows n 1 ++ pageRows tableRows n 2 ++ pageRows tableRows n 3 ++
      pageRows tableRows n 4 = tableRows := by
    rw [e1, e2, e3, e4, List.append_assoc, List.append_assoc,
      List.take_append_drop n ((tableRows.drop n).drop n),
      List.take_append_drop n (tableRows.drop n),
      List.take_append_drop n tableRows]
  refine ⟨⟨hp1, hp2, hp3, hp4⟩, hcat, ?_⟩
  have hf1 : tableRows.length + 1 = (3 * n + 2) + 1 := by omega
  have hf2 : (3 * n + 2 : Nat) = (3 * n + 1) + 1 := by omega
  have hf4 : (3 * n : Nat) = (3 * n - 1) + 1 := by omega
  rw [chunkRun, hf1, chunkAux_step]
  have h10 : ¬((pageRows tableRows n 1).length = 0) := by rw [hp1]; omega
  have h1s : ¬((pageRows tableRows n 1).length < n) := by rw [hp1]; omega
  by_cases hc1 : cb (pageRows tableRows n 1) 1 = false
  · simp [h10, hc1]
  · simp only [if_neg h10, if_neg hc1, if_neg h1s]
    rw [show (1 + 1 : Nat) = 2 from rfl, hf2, chunkAux_step]
    have h20 : ¬((pageRows tableRows n 2).length = 0) := by rw [hp2]; omega
    have h2s : ¬((pageRows tableRows n 2).length < n) := by rw [hp2]; omega
    by_cases hc2 : cb (pageRows tableRows n 2) 2 = false
    · simp [h20, hc2]
    · simp only [if_neg h20, if_neg hc2, if_neg h2s]
      rw [show (2 + 1 : Nat) = 3 from rfl, chunkAux_step]
      have h30 : ¬((pageRows tableRows n 3).length = 0) := by rw [hp3]; omega
      have h3s : ¬((pageRows tableRows n 3).length < n) := by rw [hp3]; omega
      by_cases hc3 : cb (pageRows tableRows n 3) 3 = false
      · simp [h30, hc3]
      · simp only [if_neg h30, if_neg hc3, if_neg h3s]
        rw [show (3 + 1 : Nat) = 4 from rfl, hf4, chunkAux_step]
        have h40 : ¬((pageRows tableRows n 4).length = 0) := by rw [hp4]; omega
        have h4s : (pageRows tableRows n 4).length < n := by rw [hp4]; omega
        by_cases hc4 : cb (pageRows tableRows n 4) 4 = false
        · simp [h40, hc4]
        · simp [h40, hc4, h4s]

/-- C4 counterexample: at chunk size n = 1 over 3n+2 = 5 rows the callback
is invoked five times with one row each, not four times, because the final
page of 2 rows claimed by the spec cannot arise when 2 is not smaller than
n. -/
theorem chunk_n1_counterexample :
    (([JsVal.num 1, JsVal.num 2, JsVal.num 3, JsVal.num 4, JsVal.num 5] :
        List JsVal).length = 3 * 1 + 2) ∧
    chunkRun [JsVal.num 1, JsVal.num 2, JsVal.num 3, JsVal.num 4, JsVal.num 5] 1
        (fun _ _ => true) =
      ([[JsVal.num 1], [JsVal.num 2], [JsVal.num 3], [JsVal.num 4], [JsVal.num 5]], true) ∧
    (chunkRun [JsVal.num 1, JsVal.num 2, JsVal.num 3, JsVal.num 4, JsVal.num 5] 1
        (fun _ _ => true)).1.length ≠ 4 := by
  refine ⟨rfl, rfl, by decide⟩

/-- C4 witness at n = 3 over an 11-row table with a callback that never
short-circuits. -/
theorem chunk_3n2_pages_witness :
    (3 ≤ 3) ∧ (([JsVal.num 1, JsVal.num 2, JsVal.num 3, JsVal.num 4, JsVal.num 5, JsVal.num 6, JsVal.num 7, JsVal.num 8, JsVal.num 9, JsVal.num 10, JsVal.num 11] : List JsVal).length = 3 * 3 + 2) ∧
    ((pageRows [JsVal.num 1, JsVal.num 2, JsVal.num 3, JsVal.num 4, JsVal.num 5, JsVal.num 6, JsVal.num 7, JsVal.num 8, JsVal.num 9, JsVal.num 10, JsVal.num 11] 3 1).length = 3 ∧ (pageRows [JsVal.num 1, JsVal.num 2, JsVal.num 3, JsVal.num 4, JsVal.num 5, JsVal.num 6, JsVal.num 7, JsVal.num 8, JsVal.num 9, JsVal.num 10, JsVal.num 11] 3 2).length = 3 ∧
     (pageRows [JsVal.num 1, JsVal.num 2, JsVal.num 3, JsVal.num 4, JsVal.num 5, JsVal.num 6, JsVal.num 7, JsVal.num 8, JsVal.num 9, JsVal.num 10, JsVal.num 11] 3 3).length = 3 ∧ (pageRows [JsVal.num 1, JsVal.num 2, JsVal.num 3, JsVal.num 4, JsVal.num 5, JsVal.num 6, JsVal.num 7, JsVal.num 8, JsVal.num 9, JsVal.num 10, JsVal.num 11] 3 4).length = 2) ∧
    pageRows [JsVal.num 1, JsVal.num 2, JsVal.num 3, JsVal.num 4, JsVal.num 5, JsVal.num 6, JsVal.num 7, JsVal.num 8, JsVal.num 9, JsVal.num 10, JsVal.num 11] 3 1 ++ pageRows [JsVal.num 1, JsVal.num 2, JsVal.num 3, JsVal.num 4, JsVal.num 5, JsVal.num 6, JsVal.num 7, JsVal.num 8, JsVal.num 9, JsVal.num 10, JsVal.num 11] 3 2 ++ pageRows [JsVal.num 1, JsVal.num 2, JsVal.num 3, JsVal.num 4, JsVal.num 5, JsVal.num 6, JsVal.num 7, JsVal.num 8, JsVal.num 9, JsVal.num 10, JsVal.num 11] 3 3 ++
      pageRows [JsVal.num 1, JsVal.num 2, JsVal.num 3, JsVal.num 4, JsVal.num 5, JsVal.num 6, JsVal.num 7, JsVal.num 8, JsVal.num 9, JsVal.num 10, JsVal.num 11] 3 4 = [JsVal.num 1, JsVal.num 2, JsVal.num 3, JsVal.num 4, JsVal.num 5, JsVal.num 6, JsVal.num 7, JsVal.num 8, JsVal.num 9, JsVal.num 10, JsVal.num 11] ∧
    chunkRun [JsVal.num 1, JsVal.num 2, JsVal.num 3, JsVal.num 4, JsVal.num 5, JsVal.num 6, JsVal.num 7, JsVal.num 8, JsVal.num 9, JsVal.num 10, JsVal.num 11] 3 (fun _ _ => true) =
      (if (fun (_ : List JsVal) (_ : Nat) => true) (pageRows [JsVal.num 1, JsVal.num 2, JsVal.num 3, JsVal.num 4, JsVal.num 5, JsVal.num 6, JsVal.num 7, JsVal.num 8, JsVal.num 9, JsVal.num 10, JsVal.num 11] 3 1) 1 = false then ([pageRows [JsVal.num 1, JsVal.num 2, JsVal.num 3, JsVal.num 4, JsVal.num 5, JsVal.num 6, JsVal.num 7, JsVal.num 8, JsVal.num 9, JsVal.num 10, JsVal.num 11] 3 1], false)
       else if (fun (_ : List JsVal) (_ : Nat) => true) (pageRows [JsVal.num 1, JsVal.num 2, JsVal.num 3, JsVal.num 4, JsVal.num 5, JsVal.num 6, JsVal.num 7, JsVal.num 8, JsVal.num 9, JsVal.num 10, JsVal.num 11] 3 2) 2 = false then
         ([pageRows [JsVal.num 1, JsVal.num 2, JsVal.num 3, JsVal.num 4, JsVal.num 5, JsVal.num 6, JsVal.num 7, JsVal.num 8, JsVal.num 9, JsVal.num 10, JsVal.num 11] 3 1, pageRows [JsVal.num 1, JsVal.num 2, JsVal.num 3, JsVal.num 4, JsVal.num 5, JsVal.num 6, JsVal.num 7, JsVal.num 8, JsVal.num 9, JsVal.num 10, JsVal.num 11] 3 2], false)
       else if (fun (_ : List JsVal) (_ : Nat) => true) (pageRows [JsVal.num 1, JsVal.num 2, JsVal.num 3, JsVal.num 4, JsVal.num 5, JsVal.num 6, JsVal.num 7, JsVal.num 8, JsVal.num 9, JsVal.num 10, JsVal.num 11] 3 3) 3 = false then
         ([pageRows [JsVal.num 1, JsVal.num 2, JsVal.num 3, JsVal.num 4, JsVal.num 5, JsVal.num 6, JsVal.num 7, JsVal.num 8, JsVal.num 9, JsVal.num 10, JsVal.num 11] 3 1, pageRows [JsVal.num 1, JsVal.num 2, JsVal.num 3, JsVal.num 4, JsVal.num 5, JsVal.num 6, JsVal.num 7, JsVal.num 8, JsVal.num 9, JsVal.num 10, JsVal.num 11] 3 2, pageRows [JsVal.num 1, JsVal.num 2, JsVal.num 3, JsVal.num 4, JsVal.num 5, JsVal.num 6, JsVal.num 7, JsVal.num 8, JsVal.num 9, JsVal.num 10, JsVal.num 11] 3 3], false)
       else if (fun (_ : List JsVal) (_ : Nat) => true) (pageRows [JsVal.num 1, JsVal.num 2, JsVal.num 3, JsVal.num 4, JsVal.num 5, JsVal.num 6, JsVal.num 7, JsVal.num 8, JsVal.num 9, JsVal.num 10, JsVal.num 11] 3 4) 4 = false then
         ([pageRows [JsVal.num 1, JsVal.num 2, JsVal.num 3, JsVal.num 4, JsVal.num 5, JsVal.num 6, JsVal.num 7, JsVal.num 8, JsVal.num 9, JsVal.num 10, JsVal.num 11] 3 1, pageRows [JsVal.num 1, JsVal.num 2, JsVal.num 3, JsVal.num 4, JsVal.num 5, JsVal.num 6, JsVal.num 7, JsVal.num 8, JsVal.num 9, JsVal.num 10, JsVal.num 11] 3 2, pageRows [JsVal.num 1, JsVal.num 2, JsVal.num 3, JsVal.num 4, JsVal.num 5, JsVal.num 6, JsVal.num 7, JsVal.num 8, JsVal.num 9, JsVal.num 10, JsVal.num 11] 3 3,
           pageRows [JsVal.num 1, JsVal.num 2, JsVal.num 3, JsVal.num 4, JsVal.num 5, JsVal.num 6, JsVal.num 7, JsVal.num 8, JsVal.num 9, JsVal.num 10, JsVal.num 11] 3 4], false)
       else ([pageRows [JsVal.num 1, JsVal.num 2, JsVal.num 3, JsVal.num 4, JsVal.num 5, JsVal.num 6, JsVal.num 7, JsVal.num 8, JsVal.num 9, JsVal.num 10, JsVal.num 11] 3 1, pageRows [JsVal.num 1, JsVal.num 2, JsVal.num 3, JsVal.num 4, JsVal.num 5, JsVal.num 6, JsVal.num 7, JsVal.num 8, JsVal.num 9, JsVal.num 10, JsVal.num 11] 3 2, pageRows [JsVal.num 1, JsVal.num 2, JsVal.num 3, JsVal.num 4, JsVal.num 5, JsVal.num 6, JsVal.num 7, JsVal.num 8, JsVal.num 9, JsVal.num 10, JsVal.num 11] 3 3,
           pageRows [JsVal.num 1, JsVal.num 2, JsVal.num 3, JsVal.num 4, JsVal.num 5, JsVal.num 6, JsVal.num 7, JsVal.num 8, JsVal.num 9, JsVal.num 10, JsVal.num 11] 3 4], true)) :=
  ⟨by decide, by decide,
    chunk_3n2_pages 3 (by decide) [JsVal.num 1, JsVal.num 2, JsVal.num 3, JsVal.num 4, JsVal.num 5, JsVal.num 6, JsVal.num 7, JsVal.num 8, JsVal.num 9, JsVal.num 10, JsVal.num 11] (by decide) (fun _ _ => true)⟩

/-- Claim-side formulation of the sniff: after optional leading whitespace
the statement begins, case-insensitively, with one of the write keywords. -/
def startsWithWriteKeyword (sql : String) : Prop :=
  ∃ k ∈ writeKeywords, k.data <+: ((sql.data.dropWhile jsWhitespace).map Char.toLower)

/-- The character-by-character matcher agrees with the prefix reading of
the case-insensitive alternation. -/
theorem matchPrefixCI_iff (p rest : List Char) :
    matchPrefixCI p rest = true ↔ p <+: rest.map Char.toLower := by
  induction p generalizing rest with
  | nil => simp [matchPrefixCI]
  | cons ph pt ih =>
    cases rest with
    | nil => simp [matchPrefixCI]
    | cons c cs =>
      simp only [matchPrefixCI, Bool.and_eq_true, beq_iff_eq, List.map_cons,
        List.cons_prefix_cons, ih]

/-- The regex sniff holds exactly when some write keyword is a prefix of
the lowercased statement after leading whitespace. -/
theorem isWriteOperation_iff (sql : String) :
    isWriteOperation sql = true ↔ startsWithWriteKeyword sql := by
  simp only [isWriteOperation, startsWithWriteKeyword, List.any_eq_true]
  constructor
  · rintro ⟨k, hk, hm⟩
    exact ⟨k, hk, (matchPrefixCI_iff k.data _).mp hm⟩
  · rintro ⟨k, hk, hm⟩
    exact ⟨k, hk, (matchPrefixCI_iff k.data _).mpr hm⟩

/-- C5: with a configured write pool and no active transaction, a statement
is routed to the write pool if and only if, after optional leading
whitespace, it begins case-insensitively with one of insert, update,
delete, create, alter, drop, truncate, replace, and to the read pool
otherwise; once a transaction has begun every statement is routed to the
single transaction client (checked out by `beginTransaction`), bypassing
the sniff, until commit or rollback releases it. -/
theorem read_write_routing (s : ConnState) (sql : String) (sqls : List String) :
    (s.inTx = false → s.hasWrite = true →
      ((routeQuery s sql = .writePool ↔ startsWithWriteKeyword sql) ∧
       (¬ startsWithWriteKeyword sql → routeQuery s sql = .readPool))) ∧
    (s.inTx = true → routeAll s sqls = sqls.map (fun _ => Target.txClient)) ∧
    (s.inTx = false → beginTransactionC s = .ok (ConnState.mk s.hasWrite true)) ∧
    (commitC (ConnState.mk s.hasWrite true) = .ok (ConnState.mk s.hasWrite false)) ∧
    (rollbackC (ConnState.mk s.hasWrite true) = .ok (ConnState.mk s.hasWrite false)) := by
  refine ⟨?_, ?_, ?_, ?_, ?_⟩
  · intro htx hw
    constructor
    · rw [← isWriteOperation_iff]
      cases hwr : isWriteOperation sql <;>
        simp [routeQuery, htx, hw, hwr]
    · intro hns
      have hwr : isWriteOperation sql = false := by
        rw [Bool.eq_false_iff]
        exact fun hc => hns ((isWriteOperation_iff sql).mp hc)
      simp [routeQuery, htx, hwr]
  · intro htx
    have hpt : routeQuery s = fun _ => Target.txClient := by
      funext x
      simp [routeQuery, htx]
    simp [routeAll, hpt]
  · intro htx
    simp only [beginTransactionC, htx, Bool.false_eq_true, if_false]
  · simp [commitC]
  · simp [rollbackC]

/-- C5 witness: an UPDATE behind leading whitespace routes to the write
pool, queries inside a transaction all use the transaction client, and
`beginTransaction` checks the client out. -/
theorem read_write_routing_witness :
    ((ConnState.mk true false).inTx = false) ∧
    (routeQuery (ConnState.mk true false) "  UPDATE users SET x = 1" = .writePool ↔
      startsWithWriteKeyword "  UPDATE users SET x = 1") ∧
    routeAll (ConnState.mk true true) ["select * from t", "insert into t"] =
      [Target.txClient, Target.txClient] ∧
    beginTransactionC (ConnState.mk true false) = .ok (ConnState.mk true true) :=
  ⟨rfl,
   ((read_write_routing (ConnState.mk true false) "  UPDATE users SET x = 1" []).1 rfl rfl).1,
   by
     have h := (read_write_routing (ConnState.mk true true) "x"
       ["select * from t", "insert into t"]).2.1 rfl
     simpa using h,
   (read_write_routing (ConnState.mk true false) "x" []).2.2.1 rfl⟩

/-!  Placeholder counting for claim C1. -/

/-- The number of `?` placeholder characters in a piece of SQL text. -/
def countQ (s : String) : Nat :=
  s.data.countP (fun c => c == '?')

/-- Placeholder counting distributes over string append. -/
theorem countQ_append (a b : String) : countQ (a ++ b) = countQ a + countQ b := by
  simp [countQ, String.data_append, List.countP_append]

/-- Placeholder counting of a joined fragment list. -/
theorem countQ_join (l : List String) : countQ (String.join l) = (l.map countQ).sum := by
  simp only [countQ, String.data_join, List.countP_join, List.map_map]
  rfl

/-- The characters produced by the intercalate loop. -/
theorem intercalate_go_data (acc sep : String) (l : List String) :
    (String.intercalate.go acc sep l).data =
      acc.data ++ (l.flatMap (fun a => sep.data ++ a.data)) := by
  induction l generalizing acc with
  | nil => simp [String.intercalate.go]
  | cons a as ih =>
    simp only [String.intercalate.go, ih, String.data_append, List.flatMap_cons,
      List.append_assoc]

/-- Placeholder counting of an intercalated list with a placeholder-free
separator. -/
theorem countQ_intercalate (sep : String) (l : List String) (hsep : countQ sep = 0) :
    countQ (String.intercalate sep l) = (l.map countQ).sum := by
  cases l with
  | nil => rfl
  | cons a as =>
    simp only [String.intercalate, countQ, intercalate_go_data, List.countP_append,
      List.countP_flatMap]
    simp only [countQ] at hsep
    have : (as.map (fun a => (sep.data ++ a.data).countP (fun c => c == '?'))).sum =
        (as.map (fun a => a.data.countP (fun c => c == '?'))).sum := by
      congr 1
      refine List.map_congr_left (fun x _ => ?_)
      rw [List.countP_append, hsep, Nat.zero_add]
    simp only [List.map_cons, List.sum_cons]
    have hcomp : ((List.countP fun c => c == '?') ∘ fun a : String => sep.data ++ a.data) =
        (fun a : String => List.countP (fun c => c == '?') (sep.data ++ a.data)) := rfl
    rw [hcomp, this]
    rfl

/-- The placeholder list for n values holds exactly n placeholders. -/
theorem countQ_placeholders (n : Nat) : countQ (placeholders n) = n := by
  rw [placeholders, countQ_intercalate _ _ (by decide)]
  have h1 : countQ "?" = 1 := by decide
  simp [List.map_replicate, List.sum_replicate, h1]

/-- No digit character is a placeholder. -/
theorem digitChar_ne_q (m : Nat) : Nat.digitChar m ≠ '?' := by
  rcases m with _|_|_|_|_|_|_|_|_|_|_|_|_|_|_|_|k
  case succ => simp [Nat.digitChar]
  all_goals decide

/-- The decimal-digit expansion introduces no placeholder characters. -/
theorem toDigitsCore_ne_q (b f : Nat) : ∀ (n : Nat) (ds : List Char),
    (∀ c ∈ ds, c ≠ '?') → ∀ c ∈ Nat.toDigitsCore b f n ds, c ≠ '?' := by
  induction f with
  | zero =>
    intro n ds h c hc
    simpa [Nat.toDigitsCore] using h c (by simpa [Nat.toDigitsCore] using hc)
  | succ f ih =>
    intro n ds h c hc
    simp only [Nat.toDigitsCore] at hc
    by_cases hz : n / b = 0
    · simp only [hz, if_true] at hc
      rcases List.mem_cons.mp hc with hd | htl
      · exact hd ▸ digitChar_ne_q _
      · exact h c htl
    · simp only [hz, if_false] at hc
      refine ih (n / b) ((n % b).digitChar :: ds) ?_ c hc
      intro x hx
      rcases List.mem_cons.mp hx with hd | htl
      · exact hd ▸ digitChar_ne_q _
      · exact h x htl

/-- Inlined numeric literals (LIMIT and OFFSET values) contain no
placeholders. -/
theorem countQ_natToString (n : Nat) : countQ (toString n) = 0 := by
  have h : ∀ c ∈ Nat.toDigits 10 n, c ≠ '?' :=
    toDigitsCore_ne_q 10 (n + 1) n [] (by intro c hc; cases hc)
  rw [countQ, List.countP_eq_zero]
  intro c hc
  have hc2 : c ∈ Nat.toDigits 10 n := by
    simpa [toString, Nat.repr, List.asString] using hc
  simpa using h c hc2

/-- The boolean connector prefix contains no placeholders. -/
theorem countQ_boolGlue (first : Bool) (c : Conj) : countQ (boolGlue first c) = 0 := by
  cases first <;> cases c <;> decide

/-- The select-raw bindings in append order (claim side). -/
def selectRawBindings (raws : List (String × List JsVal)) : List JsVal :=
  raws.flatMap (fun r => r.2)

mutual

/-- Claim-side bindings of a single where clause, in the spec's
clause-append order; an exists clause contributes its sub-query's
select-raw bindings followed by the sub-query's where bindings. -/
def specClauseBindings : WhereC → List JsVal
  | .basic _ _ v _ => [v]
  | .inW _ vs _ => vs
  | .notInW _ vs _ => vs
  | .nullW _ _ => []
  | .notNullW _ _ => []
  | .rawW _ bs _ => bs
  | .existsW _ _ _ _ subRaw subWheres _ _ _ =>
      selectRawBindings subRaw ++ specWheresBindings subWheres

/-- Claim-side where bindings of a clause list: the concatenation of the
clause bindings in clause-append order. -/
def specWheresBindings : List WhereC → List JsVal
  | [] => []
  | w :: ws => specClauseBindings w ++ specWheresBindings ws

end

/-- Well-formedness of the non-where parts of a builder: table name,
column names and order columns contain no `?`, and every raw select
fragment carries exactly as many `?` as it has bindings. -/
def wfParts (t : Option String) (cols : List String)
    (raws : List (String × List JsVal)) (ords : List (String × String)) : Bool :=
  countQ (t.getD "") == 0 &&
  cols.all (fun c => countQ c == 0) &&
  raws.all (fun r => countQ r.1 == r.2.length) &&
  ords.all (fun oc => countQ (oc.1 ++ " " ++ oc.2.toUpper) == 0)

mutual

/-- Well-formedness of one where clause: columns and operators contain no
`?`, raw fragments carry exactly as many `?` as bindings, and exists
clauses are recursively well-formed. -/
def wfWhere : WhereC → Bool
  | .basic col op _ _ => countQ col == 0 && countQ op.coerceStr == 0
  | .inW col _ _ => countQ col == 0
  | .notInW col _ _ => countQ col == 0
  | .nullW col _ => countQ col == 0
  | .notNullW col _ => countQ col == 0
  | .rawW sql bs _ => countQ sql == bs.length
  | .existsW _ _ t cols raws ws ords _ _ => wfParts t cols raws ords && wfWheres ws

/-- Well-formedness of a where-clause list. -/
def wfWheres : List WhereC → Bool
  | [] => true
  | w :: ws => wfWhere w && wfWheres ws

end

/-- Well-formedness of a whole builder state. -/
def wfBuilder (b : BuilderQ) : Bool :=
  wfParts b.tableName b.selectColumns b.selectRawExprs b.orderByColumns &&
  wfWheres b.whereClauses

/-- The compiled column list carries exactly the select-raw placeholder
count. -/
theorem countQ_columnsList (cols : List String) (raws : List (String × List JsVal))
    (hcols : cols.all (fun c => countQ c == 0) = true)
    (hraws : raws.all (fun r => countQ r.1 == r.2.length) = true) :
    countQ (String.intercalate ", " (cols ++ raws.map (fun r => r.1))) =
      (selectRawBindings raws).length := by
  rw [countQ_intercalate _ _ (by decide), List.map_append, List.sum_append]
  have h1 : (cols.map countQ).sum = 0 := by
    rw [List.sum_eq_zero]
    intro x hx
    rw [List.mem_map] at hx
    obtain ⟨c, hc, hcx⟩ := hx
    rw [List.all_eq_true] at hcols
    have := hcols c hc
    rw [beq_iff_eq] at this
    omega
  have h2 : ((raws.map (fun r => r.1)).map countQ).sum = (selectRawBindings raws).length := by
    rw [List.map_map, selectRawBindings, List.length_flatMap]
    congr 1
    refine List.map_congr_left (fun r hr => ?_)
    rw [List.all_eq_true] at hraws
    have := hraws r hr
    rw [beq_iff_eq] at this
    simpa using this
  rw [h1, h2, Nat.zero_add]

/-- A well-formed ORDER BY column list carries no placeholders. -/
theorem countQ_orderPart (ords : List (String × String))
    (hords : ords.all (fun oc => countQ (oc.1 ++ " " ++ oc.2.toUpper) == 0) = true) :
    countQ (String.intercalate ", " (ords.map (fun oc => oc.1 ++ " " ++ oc.2.toUpper))) = 0 := by
  rw [countQ_intercalate _ _ (by decide)]
  rw [List.sum_eq_zero]
  intro x hx
  rw [List.map_map, List.mem_map] at hx
  obtain ⟨oc, hoc, hocx⟩ := hx
  rw [List.all_eq_true] at hords
  have := hords oc hoc
  rw [beq_iff_eq] at this
  simp only [Function.comp] at hocx
  omega

/-- The assembled SELECT splits as a prefix holding exactly the select-raw
placeholders, the joined where fragments, and a placeholder-free tail, and
its bindings are the select-raw bindings followed by the where bindings. -/
theorem buildSelectFromParts_spec (t : Option String) (cols : List String)
    (raws : List (String × List JsVal)) (wres : List String × List JsVal)
    (ords : List (String × String)) (lim off : Option Nat)
    (hwf : wfParts t cols raws ords = true)
    (hw : countQ (String.join wres.1) = wres.2.length)
    (sql : String) (binds : List JsVal)
    (hok : buildSelectFromParts t cols raws wres ords lim off = .ok (sql, binds)) :
    binds = selectRawBindings raws ++ wres.2 ∧
    countQ sql = binds.length ∧
    ∃ pre post, sql = pre ++ String.join wres.1 ++ post ∧
      countQ pre = (selectRawBindings raws).length ∧ countQ post = 0 := by
  rw [wfParts, Bool.and_eq_true, Bool.and_eq_true, Bool.and_eq_true] at hwf
  obtain ⟨⟨⟨ht, hcols⟩, hraws⟩, hords⟩ := hwf
  rw [buildSelectFromParts] at hok
  by_cases htt : tableTruthy t = false
  · rw [if_pos htt] at hok
    cases hok
  · rw [if_neg htt] at hok
    simp only [Except.ok.injEq, Prod.mk.injEq] at hok
    obtain ⟨hsql, hbinds⟩ := hok
    have hOP : countQ (" ORDER BY " ++
        String.intercalate ", " (ords.map (fun oc => oc.1 ++ " " ++ oc.2.toUpper))) = 0 := by
      rw [countQ_append, countQ_orderPart ords hords]
      decide
    have hLP : ∀ n : Nat, countQ (" LIMIT " ++ toString n) = 0 := by
      intro n
      rw [countQ_append, countQ_natToString]
      decide
    have hOFP : ∀ n : Nat, countQ (" OFFSET " ++ toString n) = 0 := by
      intro n
      rw [countQ_append, countQ_natToString]
      decide
    have hCL : countQ (if String.intercalate ", " (cols ++ raws.map (fun r => r.1)) = ""
        then "*" else String.intercalate ", " (cols ++ raws.map (fun r => r.1))) =
        (selectRawBindings raws).length := by
      by_cases hz : String.intercalate ", " (cols ++ raws.map (fun r => r.1)) = ""
      · rw [if_pos hz]
        have := countQ_columnsList cols raws hcols hraws
        rw [hz] at this
        have h0 : countQ "" = 0 := by decide
        rw [h0] at this
        rw [← this]
        decide
      · rw [if_neg hz]
        exact countQ_columnsList cols raws hcols hraws
    have htq : countQ (t.getD "") = 0 := by
      rw [beq_iff_eq] at ht
      exact ht
    have hpre : ∃ pre,
        ("SELECT " ++ (if String.intercalate ", " (cols ++ raws.map (fun r => r.1)) = ""
          then "*" else String.intercalate ", " (cols ++ raws.map (fun r => r.1))) ++
          " FROM " ++ t.getD "" ++
          (if wres.1.isEmpty then "" else " WHERE " ++ String.join wres.1)) =
          pre ++ String.join wres.1 ∧
        countQ pre = (selectRawBindings raws).length := by
      by_cases hwe : wres.1.isEmpty
      · refine ⟨"SELECT " ++ (if String.intercalate ", " (cols ++ raws.map (fun r => r.1)) = ""
          then "*" else String.intercalate ", " (cols ++ raws.map (fun r => r.1))) ++
          " FROM " ++ t.getD "" ++ "", ?_, ?_⟩
        · rw [if_pos hwe]
          rw [List.isEmpty_iff] at hwe
          rw [hwe]
          have hj : String.join ([] : List String) = "" := rfl
          simp [String.append_empty, hj]
        · simp only [countQ_append, hCL, htq]
          have hs : countQ "SELECT " = 0 := by decide
          have hf : countQ " FROM " = 0 := by decide
          have he : countQ "" = 0 := by decide
          omega
      · refine ⟨"SELECT " ++ (if String.intercalate ", " (cols ++ raws.map (fun r => r.1)) = ""
          then "*" else String.intercalate ", " (cols ++ raws.map (fun r => r.1))) ++
          " FROM " ++ t.getD "" ++ " WHERE ", ?_, ?_⟩
        · rw [if_neg hwe]
          simp [String.append_assoc]
        · simp only [countQ_append, hCL, htq]
          have hs : countQ "SELECT " = 0 := by decide
          have hf : countQ " FROM " = 0 := by decide
          have hwl : countQ " WHERE " = 0 := by decide
          omega
    obtain ⟨pre, hpre1, hpre2⟩ := hpre
    have htail : ∃ post, sql =
        ("SELECT " ++ (if String.intercalate ", " (cols ++ raws.map (fun r => r.1)) = ""
          then "*" else String.intercalate ", " (cols ++ raws.map (fun r => r.1))) ++
          " FROM " ++ t.getD "" ++
          (if wres.1.isEmpty then "" else " WHERE " ++ String.join wres.1)) ++ post ∧
        countQ post = 0 := by
      rw [← hsql]
      rcases off with _ | offN <;> rcases lim with _ | limN <;> by_cases hoe : ords.isEmpty <;>
        simp only [hoe, if_true, Bool.true_eq_false, if_false]
      · exact ⟨"", by simp [String.append_empty], by decide⟩
      · refine ⟨" ORDER BY " ++
          String.intercalate ", " (ords.map (fun oc => oc.1 ++ " " ++ oc.2.toUpper)), ?_, hOP⟩
        simp [String.append_assoc]
      · refine ⟨" LIMIT " ++ toString limN, ?_, hLP limN⟩
        simp [String.append_assoc]
      · refine ⟨(" ORDER BY " ++
          String.intercalate ", " (ords.map (fun oc => oc.1 ++ " " ++ oc.2.toUpper))) ++
          (" LIMIT " ++ toString limN), ?_, ?_⟩
        · simp [String.append_assoc]
        · simp only [countQ_append]
          rw [countQ_orderPart ords hords, countQ_natToString]
          decide
      · refine ⟨" OFFSET " ++ toString offN, ?_, hOFP offN⟩
        simp [String.append_assoc]
      · refine ⟨(" ORDER BY " ++
          String.intercalate ", " (ords.map (fun oc => oc.1 ++ " " ++ oc.2.toUpper))) ++
          (" OFFSET " ++ toString offN), ?_, ?_⟩
        · simp [String.append_assoc]
        · simp only [countQ_append]
          rw [countQ_orderPart ords hords, countQ_natToString]
          decide
      · refine ⟨(" LIMIT " ++ toString limN) ++ (" OFFSET " ++ toString offN), ?_, ?_⟩
        · simp [String.append_assoc]
        · simp only [countQ_append]
          rw [countQ_natToString, countQ_natToString]
          decide
      · refine ⟨(" ORDER BY " ++
          String.intercalate ", " (ords.map (fun oc => oc.1 ++ " " ++ oc.2.toUpper))) ++
          ((" LIMIT " ++ toString limN) ++ (" OFFSET " ++ toString offN)), ?_, ?_⟩
        · simp [String.append_assoc]
        · simp only [countQ_append]
          rw [countQ_orderPart ords hords, countQ_natToString, countQ_natToString]
          decide
    obtain ⟨post, hpost1, hpost2⟩ := htail
    refine ⟨hbinds.symm ▸ rfl, ?_, ?_⟩
    · rw [hpost1, hpre1, countQ_append, countQ_append, hpre2, hpost2, hw, ← hbinds,
        List.length_append]
      have : (raws.flatMap fun r => r.2) = selectRawBindings raws := rfl
      rw [this]
      omega
    · exact ⟨pre, post, by rw [hpost1, hpre1, String.append_assoc], hpre2, hpost2⟩

/-- Reduction of a successful monadic bind on Except. -/
theorem except_bind_ok {α β : Type} (a : α) (f : α → Except String β) :
    ((Except.ok a : Except String α) >>= f) = f a := rfl

/-- Reduction of a failed monadic bind on Except. -/
theorem except_bind_err {α β : Type} (e : String) (f : α → Except String β) :
    ((Except.error e : Except String α) >>= f) = Except.error e := rfl

mutual

/-- A compiled well-formed where clause carries exactly as many
placeholders as bindings, and its bindings follow the spec order. -/
theorem compileWhere_spec (w : WhereC) (first : Bool)
    (hwf : wfWhere w = true) (frag : String) (bs : List JsVal)
    (hok : compileWhere first w = .ok (frag, bs)) :
    countQ frag = bs.length ∧ bs = specClauseBindings w := by
  cases w with
  | basic col op v conj =>
    rw [compileWhere] at hok
    simp only [Except.ok.injEq, Prod.mk.injEq] at hok
    obtain ⟨hfrag, hbs⟩ := hok
    rw [wfWhere, Bool.and_eq_true, beq_iff_eq, beq_iff_eq] at hwf
    obtain ⟨hc, ho⟩ := hwf
    constructor
    · rw [← hfrag, ← hbs]
      simp only [countQ_append, countQ_boolGlue, hc, ho]
      have h1 : countQ " " = 0 := by decide
      have h2 : countQ " ?" = 1 := by decide
      simp [h1, h2]
    · rw [← hbs, specClauseBindings]
  | inW col vs conj =>
    rw [compileWhere] at hok
    simp only [Except.ok.injEq, Prod.mk.injEq] at hok
    obtain ⟨hfrag, hbs⟩ := hok
    rw [wfWhere, beq_iff_eq] at hwf
    constructor
    · rw [← hfrag, ← hbs]
      simp only [countQ_append, countQ_boolGlue, hwf, countQ_placeholders]
      have h1 : countQ " IN (" = 0 := by decide
      have h2 : countQ ")" = 0 := by decide
      omega
    · rw [← hbs, specClauseBindings]
  | notInW col vs conj =>
    rw [compileWhere] at hok
    simp only [Except.ok.injEq, Prod.mk.injEq] at hok
    obtain ⟨hfrag, hbs⟩ := hok
    rw [wfWhere, beq_iff_eq] at hwf
    constructor
    · rw [← hfrag, ← hbs]
      simp only [countQ_append, countQ_boolGlue, hwf, countQ_placeholders]
      have h1 : countQ " NOT IN (" = 0 := by decide
      have h2 : countQ ")" = 0 := by decide
      omega
    · rw [← hbs, specClauseBindings]
  | nullW col conj =>
    rw [compileWhere] at hok
    simp only [Except.ok.injEq, Prod.mk.injEq] at hok
    obtain ⟨hfrag, hbs⟩ := hok
    rw [wfWhere, beq_iff_eq] at hwf
    constructor
    · rw [← hfrag, ← hbs]
      simp only [countQ_append, countQ_boolGlue, hwf]
      decide
    · rw [← hbs, specClauseBindings]
  | notNullW col conj =>
    rw [compileWhere] at hok
    simp only [Except.ok.injEq, Prod.mk.injEq] at hok
    obtain ⟨hfrag, hbs⟩ := hok
    rw [wfWhere, beq_iff_eq] at hwf
    constructor
    · rw [← hfrag, ← hbs]
      simp only [countQ_append, countQ_boolGlue, hwf]
      decide
    · rw [← hbs, specClauseBindings]
  | rawW sqlr bsr conj =>
    rw [compileWhere] at hok
    simp only [Except.ok.injEq, Prod.mk.injEq] at hok
    obtain ⟨hfrag, hbs⟩ := hok
    rw [wfWhere, beq_iff_eq] at hwf
    constructor
    · rw [← hfrag, ← hbs]
      simp only [countQ_append, countQ_boolGlue, hwf]
      omega
    · rw [← hbs, specClauseBindings]
  | existsW notE conj subTable subSelect subSelectRaw subWheres subOrder subLimit subOffset =>
    rw [compileWhere] at hok
    by_cases htt : tableTruthy subTable = false
    · rw [if_pos htt] at hok
      cases hok
    · rw [if_neg htt] at hok
      rw [wfWhere, Bool.and_eq_true] at hwf
      obtain ⟨hwp, hww⟩ := hwf
      rcases hcw : compileWheres true subWheres with e | wres
      · rw [hcw] at hok
        rw [except_bind_err] at hok
        cases hok
      · rw [hcw] at hok
        rw [except_bind_ok] at hok
        rcases hbp : buildSelectFromParts subTable subSelect subSelectRaw wres subOrder
            subLimit subOffset with e | sub
        · rw [hbp] at hok
          rw [except_bind_err] at hok
          cases hok
        · rw [hbp] at hok
          rw [except_bind_ok] at hok
          simp only [Except.ok.injEq, Prod.mk.injEq] at hok
          obtain ⟨hfrag, hbs⟩ := hok
          have ih := compileWheres_spec subWheres true hww wres.1 wres.2 (by rw [hcw])
          obtain ⟨hspec, hjoin, -⟩ := ih
          have hb := buildSelectFromParts_spec subTable subSelect subSelectRaw wres subOrder
            subLimit subOffset hwp hjoin sub.1 sub.2 (by rw [hbp])
          obtain ⟨hsb, hsc, -⟩ := hb
          constructor
          · rw [← hfrag, ← hbs]
            simp only [countQ_append, countQ_boolGlue, hsc]
            have h1 : countQ " (" = 0 := by decide
            have h2 : countQ ")" = 0 := by decide
            have h3 : countQ (if notE then "NOT EXISTS" else "EXISTS") = 0 := by
              cases notE <;> decide
            omega
          · rw [← hbs, specClauseBindings, hsb, hspec]
termination_by sizeOf w

/-- A compiled well-formed clause list yields bindings in clause-append
order, with per-clause fragments each carrying exactly their own
placeholders. -/
theorem compileWheres_spec (ws : List WhereC) (first : Bool)
    (hwf : wfWheres ws = true) (cls : List String) (bs : List JsVal)
    (hok : compileWheres first ws = .ok (cls, bs)) :
    bs = specWheresBindings ws ∧
    countQ (String.join cls) = bs.length ∧
    ∃ per : List (String × List JsVal),
      cls = per.map Prod.fst ∧ bs = per.flatMap Prod.snd ∧
      ∀ pr ∈ per, countQ pr.1 = pr.2.length := by
  cases ws with
  | nil =>
    rw [compileWheres] at hok
    simp only [Except.ok.injEq, Prod.mk.injEq] at hok
    obtain ⟨hcls, hbs⟩ := hok
    refine ⟨by rw [← hbs, specWheresBindings], ?_, [], by rw [← hcls]; rfl,
      by rw [← hbs]; rfl, by intro pr hpr; cases hpr⟩
    rw [← hcls, ← hbs]
    decide
  | cons w ws2 =>
    rw [compileWheres] at hok
    rw [wfWheres, Bool.and_eq_true] at hwf
    obtain ⟨hw1, hw2⟩ := hwf
    rcases hc : compileWhere first w with e | c
    · rw [hc] at hok
      rw [except_bind_err] at hok
      cases hok
    · rw [hc] at hok
      rw [except_bind_ok] at hok
      rcases hr : compileWheres false ws2 with e | rest
      · rw [hr] at hok
        rw [except_bind_err] at hok
        cases hok
      · rw [hr] at hok
        rw [except_bind_ok] at hok
        simp only [Except.ok.injEq, Prod.mk.injEq] at hok
        obtain ⟨hcls, hbs⟩ := hok
        have ih1 := compileWhere_spec w first hw1 c.1 c.2 (by rw [hc])
        have ih2 := compileWheres_spec ws2 false hw2 rest.1 rest.2 (by rw [hr])
        obtain ⟨ih1c, ih1s⟩ := ih1
        obtain ⟨ih2s, ih2j, per2, hp1, hp2, hp3⟩ := ih2
        refine ⟨?_, ?_, (c.1, c.2) :: per2, ?_, ?_, ?_⟩
        · rw [← hbs, specWheresBindings, ih1s, ih2s]
        · rw [← hbs, ← hcls, countQ_join, List.map_cons, List.sum_cons, List.length_append,
            ih1c, ← countQ_join, ih2j]
        · rw [← hcls, List.map_cons, hp1]
        · rw [← hbs, List.flatMap_cons, hp2]
        · intro pr hpr
          rcases List.mem_cons.mp hpr with hh | ht2
          · rw [hh]
            exact ih1c
          · exact hp3 pr ht2
termination_by sizeOf ws

end

/-- C1: for every well-formed builder state whose compilation succeeds,
the returned bindings array is exactly the concatenation of the select-raw
bindings (in append order) followed by the where-clause bindings (in
clause-append order); the number of `?` placeholders in the compiled SQL
equals the length of that bindings array; and their left-to-right
positions match that order: the SQL splits into a prefix carrying exactly
the select-raw placeholders, the where-clause fragments in clause order
each carrying exactly its own bindings' placeholders, and a
placeholder-free tail. -/
theorem select_bindings_order (b : BuilderQ) (hwf : wfBuilder b = true)
    (sql : String) (binds : List JsVal)
    (hok : buildSelectQuery b = .ok (sql, binds)) :
    binds = selectRawBindings b.selectRawExprs ++ specWheresBindings b.whereClauses ∧
    countQ sql = binds.length ∧
    ∃ pre clauses post,
      sql = pre ++ String.join clauses ++ post ∧
      countQ pre = (selectRawBindings b.selectRawExprs).length ∧
      countQ post = 0 ∧
      ∃ per : List (String × List JsVal),
        clauses = per.map Prod.fst ∧
        specWheresBindings b.whereClauses = per.flatMap Prod.snd ∧
        ∀ pr ∈ per, countQ pr.1 = pr.2.length := by
  rw [wfBuilder, Bool.and_eq_true] at hwf
  obtain ⟨hwp, hww⟩ := hwf
  rw [buildSelectQuery] at hok
  by_cases htt : tableTruthy b.tableName = false
  · rw [if_pos htt] at hok
    cases hok
  · rw [if_neg htt] at hok
    rcases hcw : compileWheres true b.whereClauses with e | wres
    · rw [hcw] at hok
      rw [except_bind_err] at hok
      cases hok
    · rw [hcw] at hok
      rw [except_bind_ok] at hok
      have ihw := compileWheres_spec b.whereClauses true hww wres.1 wres.2 (by rw [hcw])
      obtain ⟨hspec, hjoin, per, hper1, hper2, hper3⟩ := ihw
      have hb := buildSelectFromParts_spec b.tableName b.selectColumns b.selectRawExprs wres
        b.orderByColumns b.limitValue b.offsetValue hwp hjoin sql binds hok
      obtain ⟨hsb, hsc, pre, post, hdec, hpreq, hpostq⟩ := hb
      refine ⟨by rw [hsb, hspec], hsc, pre, wres.1, post, hdec, hpreq, hpostq,
        per, hper1, ?_, hper3⟩
      rw [← hspec, hper2]

/-- C1 witness: a builder with a raw select fragment, a basic where, a
where-in and a raw or-where compiles with select-raw bindings first and
one placeholder per binding. -/
theorem select_bindings_order_witness :
    (wfBuilder (((((BuilderQ.table {} "t").selectRawM "COUNT(*) FILTER (WHERE x = ?)"
        [.num 9]).whereM "a" (.str ">") (.num 2)).whereInM "c"
        [.num 3, .num 4]).whereRawM "d = ? OR e = ?" [.num 5, .num 6] Conj.orC) = true) ∧
    (buildSelectQuery (((((BuilderQ.table {} "t").selectRawM "COUNT(*) FILTER (WHERE x = ?)"
        [.num 9]).whereM "a" (.str ">") (.num 2)).whereInM "c"
        [.num 3, .num 4]).whereRawM "d = ? OR e = ?" [.num 5, .num 6] Conj.orC) =
      .ok ("SELECT *, COUNT(*) FILTER (WHERE x = ?) FROM t WHERE a > ? AND c IN (?, ?) OR d = ? OR e = ?",
        [JsVal.num 9, JsVal.num 2, JsVal.num 3, JsVal.num 4, JsVal.num 5, JsVal.num 6])) ∧
    ([JsVal.num 9, JsVal.num 2, JsVal.num 3, JsVal.num 4, JsVal.num 5, JsVal.num 6] =
      selectRawBindings (((((BuilderQ.table {} "t").selectRawM "COUNT(*) FILTER (WHERE x = ?)"
        [.num 9]).whereM "a" (.str ">") (.num 2)).whereInM "c"
        [.num 3, .num 4]).whereRawM "d = ? OR e = ?" [.num 5, .num 6] Conj.orC).selectRawExprs ++
      specWheresBindings (((((BuilderQ.table {} "t").selectRawM "COUNT(*) FILTER (WHERE x = ?)"
        [.num 9]).whereM "a" (.str ">") (.num 2)).whereInM "c"
        [.num 3, .num 4]).whereRawM "d = ? OR e = ?" [.num 5, .num 6] Conj.orC).whereClauses ∧
    countQ "SELECT *, COUNT(*) FILTER (WHERE x = ?) FROM t WHERE a > ? AND c IN (?, ?) OR d = ? OR e = ?" =
      ([JsVal.num 9, JsVal.num 2, JsVal.num 3, JsVal.num 4, JsVal.num 5,
        JsVal.num 6] : List JsVal).length ∧
    ∃ pre clauses post,
      "SELECT *, COUNT(*) FILTER (WHERE x = ?) FROM t WHERE a > ? AND c IN (?, ?) OR d = ? OR e = ?" =
        pre ++ String.join clauses ++ post ∧
      countQ pre = (selectRawBindings (((((BuilderQ.table {} "t").selectRawM
        "COUNT(*) FILTER (WHERE x = ?)" [.num 9]).whereM "a" (.str ">") (.num 2)).whereInM "c"
        [.num 3, .num 4]).whereRawM "d = ? OR e = ?" [.num 5, .num 6]
        Conj.orC).selectRawExprs).length ∧
      countQ post = 0 ∧
      ∃ per : List (String × List JsVal),
        clauses = per.map Prod.fst ∧
        specWheresBindings (((((BuilderQ.table {} "t").selectRawM
          "COUNT(*) FILTER (WHERE x = ?)" [.num 9]).whereM "a" (.str ">") (.num 2)).whereInM "c"
          [.num 3, .num 4]).whereRawM "d = ? OR e = ?" [.num 5, .num 6]
          Conj.orC).whereClauses = per.flatMap Prod.snd ∧
        ∀ pr ∈ per, countQ pr.1 = pr.2.length) :=
  ⟨by decide, rfl,
    select_bindings_order _ (by decide) _ _ rfl⟩
